import Mathlib

/-!
Verification development for `pf/accounting.py` (personal-finance statement
engine).  The Python module is shallowly embedded below: pandas tables become
association lists keyed by dates or by (Category, Type, Item) triples, float
amounts become rationals, Python sets of strings become lists of strings
considered up to membership, and fallible code returns `Except`.  Calendar
dates are modelled as integers (day numbers), so that a difference of dates in
days is plain integer subtraction.
-/

namespace PF

/-- Python exceptions that the embedded code can raise.  The source module
defines no exception class of its own; the only failures it can produce are
dictionary key lookups, modelled by `keyError`, and positional accesses into
an empty table, modelled by `indexError`. -/
inductive PyError where
  | keyError : String → PyError
  | indexError : PyError
deriving DecidableEq, Repr

/-- A transaction record: one row of the transactions table
(date index, Amount, Category, Account Name, Labels). -/
structure Txn where
  date : Int
  amount : ℚ
  category : String
  account : String
  labels : List String
deriving DecidableEq, Repr

/-- A paycheck record: one row of the paycheck table (pay-date index and one
numeric field per paycheck sub-category). -/
structure Paycheck where
  date : Int
  fields : List (String × ℚ)
deriving DecidableEq, Repr

/-- A raw category-tree leaf, as authored by the user: every field may be
missing.  In the source this is a Python dict; a missing key is `none`. -/
structure RawLeaf where
  source : Option String
  categories : Option (List String)
  labels : Option (List String)
  logic : Option String
  agg : Option (List ℚ)
  tax_type : Option String
deriving DecidableEq, Repr

/-- A leaf with every field the aggregation code reads made concrete. -/
structure Leaf where
  source : String
  categories : List String
  labels : List String
  logic : String
  agg : List ℚ
  tax_type : String
deriving DecidableEq, Repr

/-- Hierarchy key of a leaf: the (Category, Type, Item) triple. -/
abbrev Key := String × String × String

/-- A raw category tree, flattened to an association list from hierarchy keys
to raw leaves (the source iterates the three nested dict levels). -/
abbrev RawTree := List (Key × RawLeaf)

/-- Python set.isdisjoint for label sets modelled as lists:
no element of `xs` is an element of `ys`. -/
def labelsDisjoint (xs ys : List String) : Bool :=
  xs.all (fun a => !(ys.contains a))

/-- Record-selection predicate for a transaction-sourced leaf, translated from
the boolean mask of `calc_cashflow` (accounting.py lines 406-418) which is
identical to the transactions branch of `calc_income` (lines 233-247):
the record category is one of the leaf categories, the account is in the
tax-type table entry for the leaf tax type, and either the label clause holds
(`isdisjoint` when `logic` is a non-empty string, its negation when `logic`
is the empty string) or the leaf label set is empty.  The tax-type table is
modelled as a total function from tax-type names to account-name lists. -/
def txnSelected (taxTbl : String → List String) (leaf : Leaf) (t : Txn) : Bool :=
  (leaf.categories.contains t.category && (taxTbl leaf.tax_type).contains t.account)
    && ((if leaf.logic == "" then !(labelsDisjoint t.labels leaf.labels)
         else labelsDisjoint t.labels leaf.labels)
        || leaf.labels.isEmpty)

/-- Label-match condition exactly as the specification words it (section 4.1),
written for the refinement comparison in claim C1: true when the leaf label
set is empty; otherwise an inclusive intersection test when `logic` is empty
and an exclusive one when `logic` is `not`. -/
def labelMatchSpec (leaf : Leaf) (t : Txn) : Prop :=
  if leaf.labels = [] then True
  else if leaf.logic = "" then ∃ a ∈ t.labels, a ∈ leaf.labels
  else ∀ a ∈ t.labels, a ∉ leaf.labels

instance (leaf : Leaf) (t : Txn) : Decidable (labelMatchSpec leaf t) := by
  unfold labelMatchSpec; infer_instance

/-- Default-filling pass of `calc_cashflow` (lines 394-402): each leaf gets
`labels`, `logic` and `tax_type` defaults when missing.  The Python loop
writes the defaults back into the caller dictionary, so the result of this
function is also the post-call state of the caller tree.  The pass never
touches the `categories` key and cannot fail. -/
def cleanCashflowLeaf (l : RawLeaf) : RawLeaf :=
  { l with
    labels := some (l.labels.getD [])
    logic := some (l.logic.getD "")
    tax_type := some (l.tax_type.getD "realized") }

/-- Default-filling pass of `calc_cashflow` over the whole tree. -/
def cleanCashflowTree (t : RawTree) : RawTree :=
  t.map (fun kl => (kl.1, cleanCashflowLeaf kl.2))

/-- Default-filling pass of `calc_income` (lines 212-225) for one leaf:
fills `source`, `labels`, `logic`, `agg` and `tax_type`.  The default for
`agg` is a vector of ones whose length is the size of the `categories` set,
so building it reads `v2[categories]`; when both `agg` and `categories` are
missing this read raises `KeyError(categories)`.  As in the cashflow pass,
the filled leaf is written back into the caller dictionary. -/
def cleanIncomeLeaf (l : RawLeaf) : Except PyError RawLeaf := do
  let src := l.source.getD "transactions"
  let labels := l.labels.getD []
  let logic := l.logic.getD ""
  let agg ← match l.agg with
    | some a => pure a
    | none =>
      match l.categories with
      | some cs => pure (List.replicate cs.length (1 : ℚ))
      | none => throw (PyError.keyError "categories")
  let tt := l.tax_type.getD "realized"
  pure { l with
         source := some src, labels := some labels, logic := some logic,
         agg := some agg, tax_type := some tt }

/-- Traversal of a list by a fallible function, stopping at the first error;
this mirrors the Python loops and comprehensions, which raise out of the
enclosing function at the first failing leaf. -/
def exceptMap (f : α → Except PyError β) : List α → Except PyError (List β)
  | [] => .ok []
  | x :: xs => do
    let y ← f x
    let ys ← exceptMap f xs
    pure (y :: ys)

/-- Default-filling pass of `calc_income` over the whole tree. -/
def cleanIncomeTree (t : RawTree) : Except PyError RawTree :=
  exceptMap (fun kl => do pure (kl.1, ← cleanIncomeLeaf kl.2)) t

/-- Read the fields of a (cleaned) raw leaf the way the aggregation code does:
`v2[categories]` is a required key whose absence raises `KeyError`, while the
remaining reads hit keys the cleaning pass has filled (modelled with the same
defaults for totality). -/
def toLeaf (l : RawLeaf) : Except PyError Leaf := do
  match l.categories with
  | none => throw (PyError.keyError "categories")
  | some cs =>
    pure { source := l.source.getD "transactions", categories := cs,
           labels := l.labels.getD [], logic := l.logic.getD "",
           agg := l.agg.getD (List.replicate cs.length (1 : ℚ)),
           tax_type := l.tax_type.getD "realized" }

/-- Daily index of `calc_income` and `calc_cashflow` (lines 257 and 430):
`pd.date_range(transactions.index[-1], transactions.index[0])`, the calendar
days from the date of the last transaction row to the date of the first one.
Positional access into an empty table raises `IndexError`; a range whose
start exceeds its end is empty. -/
def dateRangeDesc (txns : List Txn) : Except PyError (List Int) :=
  match txns.head?, txns.getLast? with
  | some first, some last =>
    .ok (if last.date ≤ first.date then
           (List.range (first.date - last.date + 1).toNat).map
             (fun (i : Nat) => last.date + (i : Int))
         else [])
  | _, _ => .error PyError.indexError

/-- Value of a transaction-sourced leaf on one calendar day: the sum of the
amounts of the selected records dated that day (group by date, sum, reindex
with zero fill collapses to this per-day sum, with 0 when nothing matches). -/
def txnDayValue (taxTbl : String → List String) (txns : List Txn) (leaf : Leaf)
    (d : Int) : ℚ :=
  ((txns.filter (fun t => txnSelected taxTbl leaf t && t.date == d)).map
    (fun t => t.amount)).sum

/-- Value of one paycheck record under a paycheck-sourced leaf:
`(agg * paychecks[list(categories)]).sum(axis=1)`, the weighted sum of the
selected paycheck fields (missing fields contribute 0 here; no claim probes
a paycheck column absent from the table). -/
def paycheckValue (leaf : Leaf) (p : Paycheck) : ℚ :=
  ((leaf.agg.zip leaf.categories).map
    (fun za => za.1 * (((p.fields.find? (fun f => f.1 == za.2)).map
      (fun f => f.2)).getD 0))).sum

/-- Value of a paycheck-sourced leaf on one calendar day: the sum of the
per-record weighted values over the records paid that day. -/
def payDayValue (pays : List Paycheck) (leaf : Leaf) (d : Int) : ℚ :=
  ((pays.filter (fun p => p.date == d)).map (paycheckValue leaf)).sum

/-- Series of one leaf over the daily index. -/
def leafSeries (range : List Int) (value : Int → ℚ) : List (Int × ℚ) :=
  range.map (fun d => (d, value d))

/-- Embedding of `calc_cashflow` (lines 340-436).  Returns the post-call
state of the caller category tree (which the source mutates in place while
filling defaults) together with the output table: one daily series per leaf,
indexed over the transaction date range.  Evaluation order follows the
source: the cleaning loop runs first, then the aggregation comprehension
(which is where a missing `categories` key raises), then the daily index is
built.  Sorting of the column keys is presentational and is left out of the
keyed-table model. -/
def calcCashflow (taxTbl : String → List String) (txns : List Txn)
    (tree : RawTree) :
    Except PyError (RawTree × List (Key × List (Int × ℚ))) := do
  let tree2 := cleanCashflowTree tree
  let sel ← exceptMap (fun kl => do pure (kl.1, ← toLeaf kl.2)) tree2
  let range ← dateRangeDesc txns
  pure (tree2,
    sel.map (fun kl => (kl.1, leafSeries range (txnDayValue taxTbl txns kl.2))))

/-- Embedding of `calc_income` (lines 153-263).  As in `calcCashflow` the
post-call state of the caller tree is returned alongside the output.
A leaf whose `source` is `transactions` is aggregated from the transaction
records through the selection predicate; any other source uses the weighted
paycheck fields.  Both kinds of series are reindexed onto the transaction
date range. -/
def calcIncome (taxTbl : String → List String) (txns : List Txn)
    (pays : List Paycheck) (tree : RawTree) :
    Except PyError (RawTree × List (Key × List (Int × ℚ))) := do
  let tree2 ← cleanIncomeTree tree
  let sel ← exceptMap (fun kl => do pure (kl.1, ← toLeaf kl.2)) tree2
  let range ← dateRangeDesc txns
  pure (tree2,
    sel.map (fun kl =>
      (kl.1, leafSeries range
        (if kl.2.source == "transactions" then txnDayValue taxTbl txns kl.2
         else payDayValue pays kl.2))))

/-- Sum of the dollar values of the rows whose top-level Category is `c`
(`df.sum(level=0)` restricted to one group). -/
def catSum (base : List (Key × ℚ)) (c : String) : ℚ :=
  ((base.filter (fun r => r.1.1 == c)).map (fun r => r.2)).sum

/-- Sum of the dollar values of the rows whose Type (middle level) is `ty`. -/
def typeSum (base : List (Key × ℚ)) (ty : String) : ℚ :=
  ((base.filter (fun r => r.1.2.1 == ty)).map (fun r => r.2)).sum

/-- Sum of the dollar values of the rows with Category `c` and Type `ty`. -/
def typeCatSum (base : List (Key × ℚ)) (c ty : String) : ℚ :=
  ((base.filter (fun r => r.1.1 == c && r.1.2.1 == ty)).map (fun r => r.2)).sum

/-- Distinct top-level Categories of a keyed table, in the role of the level-0
label set of the pandas index. -/
def catsOf (t : List (Key × α)) : List String :=
  (t.map (fun r => r.1.1)).dedup

/-- Distinct Types (middle level) of a keyed table. -/
def typesOf (t : List (Key × α)) : List String :=
  (t.map (fun r => r.1.2.1)).dedup

/-- Distinct (Category, Type) pairs of a keyed table. -/
def ctPairsOf (t : List (Key × α)) : List (String × String) :=
  (t.map (fun r => (r.1.1, r.1.2.1))).dedup

/-- Net pseudo-category of the balance and cashflow statements
(`df.sum(level=[0,1]).sum(level=1)` re-labelled under Category `Net` with
Item `Total`): one row per Type, holding the sum over all Categories. -/
def netRows (base : List (Key × ℚ)) : List (Key × ℚ) :=
  (typesOf base).map (fun ty => (("Net", ty, "Total"), typeSum base ty))

/-- Attach the percentage column:
`% = 100 * value / (sum of the values sharing the Category)`.  Each row
becomes (key, (dollar value, percent value)). -/
def pctRows (base : List (Key × ℚ)) : List (Key × (ℚ × ℚ)) :=
  base.map (fun r => (r.1, (r.2, 100 * r.2 / catSum base r.1.1)))

/-- Columnwise sum of dollar/percent pairs (`df.sum(level=...)` sums every
column of the statement, dollars and percents alike). -/
def pairSum (l : List (ℚ × ℚ)) : ℚ × ℚ :=
  ((l.map (fun p => p.1)).sum, (l.map (fun p => p.2)).sum)

/-- Type-level totals: one row `(Category, Type, Total)` per distinct
(Category, Type) pair, holding the columnwise group sum. -/
def l1Totals (t : List (Key × (ℚ × ℚ))) : List (Key × (ℚ × ℚ)) :=
  (ctPairsOf t).map (fun ct =>
    ((ct.1, ct.2, "Total"),
     pairSum ((t.filter (fun r => r.1.1 == ct.1 && r.1.2.1 == ct.2)).map
       (fun r => r.2))))

/-- Category-level totals: one row `(Category, Total, el)` per distinct
Category with Item a single blank, holding the columnwise group sum. -/
def l0Totals (t : List (Key × (ℚ × ℚ))) : List (Key × (ℚ × ℚ)) :=
  (catsOf t).map (fun c =>
    ((c, "Total", " "),
     pairSum ((t.filter (fun r => r.1.1 == c)).map (fun r => r.2))))

/-- pandas `combine_first` on keyed tables: keep every row of `a`, and add
the rows of `b` whose keys `a` does not already hold. -/
def combineFirst (a b : List (Key × α)) : List (Key × α) :=
  a ++ b.filter (fun r => !(a.any (fun s => s.1 == r.1)))

/-- Label lookup of one row in a keyed table. -/
def getRow (t : List (Key × α)) (k : Key) : Option α :=
  (t.find? (fun r => r.1 == k)).map (fun r => r.2)

/-- Merge the Type-level and Category-level totals into the table, existing
rows taking precedence (the two `combine_first` calls; both total layers are
computed from the table before either merge, as in the source). -/
def withTotals (t : List (Key × (ℚ × ℚ))) : List (Key × (ℚ × ℚ)) :=
  combineFirst (combineFirst t (l1Totals t)) (l0Totals t)

/-- Per-period rollup shared verbatim by `cashflow_statement` (lines 457-488)
and `balance_sheet` (lines 108-140): concatenate the Net pseudo-category to
the per-leaf values, attach percentages, then merge in the hierarchical
totals. -/
def flowStatement (base : List (Key × ℚ)) : List (Key × (ℚ × ℚ)) :=
  withTotals (pctRows (base ++ netRows base))

/-- Flow-style period extraction (`cashflow[p].sum()` per leaf): the sum of
the daily series over the days of the period. -/
def periodRows (table : List (Key × List (Int × ℚ))) (inPeriod : Int → Bool) :
    List (Key × ℚ) :=
  table.map (fun ks =>
    (ks.1, ((ks.2.filter (fun e => inPeriod e.1)).map (fun e => e.2)).sum))

/-- Balance-style period extraction (`balance[p].iloc[-1]` per leaf): the
last entry of the daily series inside the period (0 for an empty slice,
where the source would raise; no claim exercises an empty slice). -/
def lastRows (table : List (Key × List (Int × ℚ))) (inPeriod : Int → Bool) :
    List (Key × ℚ) :=
  table.map (fun ks =>
    (ks.1, (((ks.2.filter (fun e => inPeriod e.1)).getLast?).map
      (fun e => e.2)).getD 0))

/-- `cashflow_statement` for one period. -/
def cashflowStatement (table : List (Key × List (Int × ℚ)))
    (inPeriod : Int → Bool) : List (Key × (ℚ × ℚ)) :=
  flowStatement (periodRows table inPeriod)

/-- `balance_sheet` for one period. -/
def balanceSheet (table : List (Key × List (Int × ℚ)))
    (inPeriod : Int → Bool) : List (Key × (ℚ × ℚ)) :=
  flowStatement (lastRows table inPeriod)

/-- Net section of the income statement (lines 310-324): Before Taxes sums
the Category-level total rows of the Categories outside `nettax`, After
Taxes sums them for every Category, and a third row repeats the After-Taxes
value as the Net Total.  The source reads the level-0 label set of the
combined table and looks the `(Category, Total, blank)` rows up in it; the
percent column of these three rows is left missing by the source (`NaN`)
and is modelled as 0. -/
def catTotalOf (t : List (Key × (ℚ × ℚ))) (c : String) : ℚ :=
  ((getRow t (c, "Total", " ")).map (fun p => p.1)).getD 0

def netTriple (t : List (Key × (ℚ × ℚ))) (nettax : List String) :
    List (Key × (ℚ × ℚ)) :=
  [ (("Net", "Net Income", "Before Taxes"),
     ((((catsOf t).filter (fun c => !(nettax.contains c))).map (catTotalOf t)).sum, 0)),
    (("Net", "Net Income", "After Taxes"),
     (((catsOf t).map (catTotalOf t)).sum, 0)),
    (("Net", "Total", " "),
     (((catsOf t).map (catTotalOf t)).sum, 0)) ]

/-- `income_statement` for one period (lines 280-333): percentages and
hierarchical totals are computed over the leaf rows alone, and the Net
section is appended afterwards.  A falsy `nettax` argument (here the empty
list) falls back to the default set holding `Taxes`. -/
def incomeStatementTable (table : List (Key × List (Int × ℚ)))
    (inPeriod : Int → Bool) (nettax0 : List String) : List (Key × (ℚ × ℚ)) :=
  withTotals (pctRows (periodRows table inPeriod))
    ++ netTriple (withTotals (pctRows (periodRows table inPeriod)))
        (if nettax0.isEmpty then ["Taxes"] else nettax0)

/-- Modelled from the spec: the constant `DAYS_IN_YEAR` lives in
`pf/constants.py`, which is not part of the sources; section 4.4 of the
specification fixes it as 365.25 (used as `years_elapsed = days / 365.25`). -/
def DAYS_IN_YEAR : ℚ := 1461 / 4

/-- One row of the net-worth table, restricted to the three columns
(`Assets`, `Debts`, `Net`) that `calculate_growth` reads. -/
structure NWRow where
  date : Int
  assets : ℚ
  debts : ℚ
  net : ℚ
deriving DecidableEq, Repr

/-- One output row of `calculate_growth`: the (Period, Growth) index pair and
the three value columns. -/
structure GrowthRow where
  period : String
  growth : String
  assets : ℚ
  debts : ℚ
  net : ℚ
deriving DecidableEq, Repr

/-- Label lookup `net_worth.loc[d]`: pandas requires the exact date label to
be present and raises `KeyError` otherwise. -/
def nwFind (nw : List NWRow) (d : Int) : Except PyError NWRow :=
  match nw.find? (fun r => r.date == d) with
  | some r => .ok r
  | none => .error (PyError.keyError (toString d))

/-- Date label of a growth row, `strftime` of the looked-up date; the claims
never inspect this string, so plain `toString` stands in for the month-year
format. -/
def fmtDate (d : Int) : String := toString d

/-- One interval of `calculate_growth` (lines 584-617).  The offset sequence
is modelled as a list of calendar adjustments, each a function on dates,
folded over the final date exactly as the source adds each offset in turn.
If the computed initial date precedes the first index entry the interval is
skipped (no rows).  Otherwise both endpoint rows are label lookups; the
elapsed years are `days / DAYS_IN_YEAR`.  The only `ZeroDivisionError` the
try block can raise comes from the scalar division `1.0 / number_of_years`
(pandas Series arithmetic never raises on zero division), so the guarded
CAGR row degrades to the zero vector exactly when the elapsed years are 0.
The division of `gains` by zero elapsed years yields float infinities in the
source; rational division by zero returns 0 here, and no claim reads that
row.  `pow2` abstracts the float power `x ** e` and `round2` the
`round(2)` column rounding, neither of which is rational-valued in general. -/
def growthEntry (pow2 : ℚ → ℚ → ℚ) (round2 : ℚ → ℚ) (nw : List NWRow)
    (firstDate lastDate : Int) (off : String × List (Int → Int)) :
    Except PyError (List GrowthRow) :=
  if firstDate ≤ off.2.foldl (fun d f => f d) lastDate then do
    let fr ← nwFind nw lastDate
    let ir ← nwFind nw (off.2.foldl (fun d f => f d) lastDate)
    let days : Int := lastDate - off.2.foldl (fun d f => f d) lastDate
    let years : ℚ := (days : ℚ) / DAYS_IN_YEAR
    let deltaA := fr.assets - ir.assets
    let deltaD := fr.debts - ir.debts
    let deltaN := fr.net - ir.net
    let gainA := 100 * deltaA / ir.assets
    let gainD := 100 * deltaD / ir.debts
    let gainN := 100 * deltaN / ir.net
    let cagr : ℚ × ℚ × ℚ :=
      if years = 0 then (0, 0, 0)
      else (100 * (pow2 (fr.assets / ir.assets) (1 / years) - 1),
            100 * (pow2 (fr.debts / ir.debts) (1 / years) - 1),
            100 * (pow2 (fr.net / ir.net) (1 / years) - 1))
    pure [ ⟨off.1, fmtDate lastDate, round2 fr.assets, round2 fr.debts, round2 fr.net⟩,
           ⟨off.1, fmtDate (off.2.foldl (fun d f => f d) lastDate),
             round2 ir.assets, round2 ir.debts, round2 ir.net⟩,
           ⟨off.1, "Delta", round2 deltaA, round2 deltaD, round2 deltaN⟩,
           ⟨off.1, "Gain", round2 gainA, round2 gainD, round2 gainN⟩,
           ⟨off.1, "Ann Gain", round2 (gainA / years), round2 (gainD / years),
             round2 (gainN / years)⟩,
           ⟨off.1, "CAGR", round2 cagr.1, round2 cagr.2.1, round2 cagr.2.2⟩ ]
  else pure []

/-- `calculate_growth` over a list of labelled offset sequences: the included
intervals contribute six rows each, in order. -/
def calculateGrowth (pow2 : ℚ → ℚ → ℚ) (round2 : ℚ → ℚ) (nw : List NWRow)
    (offs : List (String × List (Int → Int))) :
    Except PyError (List GrowthRow) := do
  let firstDate := ((nw.head?).map (fun r => r.date)).getD 0
  let lastDate := ((nw.getLast?).map (fun r => r.date)).getD 0
  let parts ← exceptMap (growthEntry pow2 round2 nw firstDate lastDate) offs
  pure parts.flatten

/-- One row of the milestone table. -/
structure MRow where
  date : Option Int
  milestone : ℚ
  actual : ℚ
  age : Option ℚ
  years : Option ℚ
deriving DecidableEq, Repr

/-- One milestone search of `get_milestones` (lines 657-671) over the `Net`
column, modelled as (date, net) pairs.  When some day reaches the threshold,
the first such index entry gives the date, the age (an external helper from
`pf/util.py`, abstracted as `getAge`), the signed years from today, and the
actual value looked up by date label; otherwise the row records the negative
shortfall against the current (last) net value with null date, age and
years. -/
def milestoneRow (getAge : Int → ℚ) (today : Int) (nw : List (Int × ℚ))
    (m : ℚ) : MRow :=
  match nw.find? (fun r => decide (m ≤ r.2)) with
  | some r0 =>
    { date := some r0.1, milestone := m,
      actual := ((nw.find? (fun r => r.1 == r0.1)).map (fun r => r.2)).getD 0,
      age := some (getAge r0.1),
      years := some (((r0.1 - today : Int) : ℚ) / DAYS_IN_YEAR) }
  | none =>
    { date := none, milestone := m,
      actual := -(m - (((nw.getLast?).map (fun r => r.2)).getD 0)),
      age := none, years := none }

/-- `get_milestones` over a threshold list. -/
def getMilestones (getAge : Int → ℚ) (today : Int) (nw : List (Int × ℚ))
    (ms : List ℚ) : List MRow :=
  ms.map (milestoneRow getAge today nw)

/-- One row of the summary table consumed by `calc_metrics`: the columns the
function reads (the three stock columns, the six flow columns it smooths,
and the credit line). -/
structure SummaryRow where
  date : Int
  assets : ℚ
  debts : ℚ
  net : ℚ
  totalIncome : ℚ
  realizedIncome : ℚ
  expenseLoans : ℚ
  expense : ℚ
  taxes : ℚ
  salesTax : ℚ
  creditLine : ℚ
deriving DecidableEq, Repr

/-- One row of the metrics table produced by `calc_metrics`. -/
structure MetricsRow where
  debtPct : ℚ
  debtToIncome : ℚ
  debtUtilization : ℚ
  incomeNetMultiple : ℚ
  expenseNetMultiple : ℚ
  profitMargin : ℚ
  swrExpenseCovered : ℚ
  swrIncomeCovered : ℚ
  realizedIncomeToNet : ℚ
  totalIncomeTaxRate : ℚ
  realizedIncomeTaxRate : ℚ
  incomeTaxToNet : ℚ
  incomeTaxToExpense : ℚ
  totalSalesTaxRate : ℚ
  realizedSalesTaxRate : ℚ
  salesTaxToNet : ℚ
  salesTaxToExpense : ℚ
  totalTaxRate : ℚ
  realizedTotalTaxRate : ℚ
  totalTaxToNet : ℚ
  totalTaxToExpense : ℚ
  fiAmount : ℚ
  fiShortfall : ℚ
  fiPercent : ℚ

/-- Expanding mean of a column at row position `i`: the mean of the first
`i + 1` values (`expanding().mean()` in the source). -/
def colMean (xs : List ℚ) (i : Nat) : ℚ :=
  ((xs.take (i + 1)).sum) / ((i : ℚ) + 1)

/-- Row `i` of `summary[cols] = summary[cols].expanding().mean()`
(accounting.py line 751): the six flow columns are replaced by their
expanding means over the whole table; the other columns are untouched. -/
def smoothRow (s : List SummaryRow) (i : Nat) (r : SummaryRow) : SummaryRow :=
  { r with
    totalIncome := colMean (s.map (fun x => x.totalIncome)) i
    realizedIncome := colMean (s.map (fun x => x.realizedIncome)) i
    expenseLoans := colMean (s.map (fun x => x.expenseLoans)) i
    expense := colMean (s.map (fun x => x.expense)) i
    taxes := colMean (s.map (fun x => x.taxes)) i
    salesTax := colMean (s.map (fun x => x.salesTax)) i }

/-- The in-place smoothing assignment of `calc_metrics`: the caller summary
after line 751 has run. -/
def smoothSummary (s : List SummaryRow) : List SummaryRow :=
  s.enum.map (fun ir => smoothRow s ir.1 ir.2)

/-- The ratio formulas of `calc_metrics` (lines 754-787) for one summary row,
each a pure elementwise computation over the (smoothed) summary columns.
Zero denominators yield float infinities in the source; rational division by
zero returns 0 here, and no claim reads those values. -/
def metricsOfRow (swr : ℚ) (r : SummaryRow) : MetricsRow :=
  { debtPct := 100 * (-r.debts) / r.assets
    debtToIncome := 100 * (-r.debts) / r.realizedIncome
    debtUtilization := 100 * (-r.debts) / r.creditLine
    incomeNetMultiple := r.net / r.realizedIncome
    expenseNetMultiple := r.net / (-r.expense)
    profitMargin := 100 * (r.realizedIncome + r.expense) / r.realizedIncome
    swrExpenseCovered := 100 * (swr * r.net) / (-r.expense)
    swrIncomeCovered := 100 * (swr * r.net) / r.realizedIncome
    realizedIncomeToNet := 100 * r.realizedIncome / r.net
    totalIncomeTaxRate := -100 * r.taxes / r.totalIncome
    realizedIncomeTaxRate := -100 * r.taxes / r.realizedIncome
    incomeTaxToNet := -100 * r.taxes / r.net
    incomeTaxToExpense := -100 * r.taxes / (-r.expense)
    totalSalesTaxRate := -100 * r.salesTax / r.totalIncome
    realizedSalesTaxRate := -100 * r.salesTax / r.realizedIncome
    salesTaxToNet := -100 * r.salesTax / r.net
    salesTaxToExpense := -100 * r.salesTax / (-r.expense)
    totalTaxRate := -100 * (r.taxes + r.salesTax) / r.totalIncome
    realizedTotalTaxRate := -100 * (r.taxes + r.salesTax) / r.realizedIncome
    totalTaxToNet := -100 * (r.taxes + r.salesTax) / r.net
    totalTaxToExpense := -100 * (r.taxes + r.salesTax) / (-r.expense)
    fiAmount := 25 * (-r.expense)
    fiShortfall := (25 * (-r.expense)) - r.net
    fiPercent := 100 * r.net / (25 * (-r.expense)) }

/-- Embedding of `calc_metrics` (lines 709-787).  The smoothing assignment
writes into the caller summary, so the first component of the result is the
post-call state of the caller table (its six flow columns replaced by
expanding means); the metrics are then computed row by row from that
smoothed table.  The safe-withdrawal rate defaults to 0.04 in the source
and is a parameter here. -/
def calcMetrics (swr : ℚ) (summary : List SummaryRow) :
    List SummaryRow × List MetricsRow :=
  (smoothSummary summary, (smoothSummary summary).map (metricsOfRow swr))

/-! Helper lemmas about the fallible traversal and the normalization passes. -/

theorem exceptMap_ok {α β : Type} (f : α → Except PyError β) (l : List α)
    (h : ∀ x ∈ l, ∃ y, f x = .ok y) : ∃ ys, exceptMap f l = .ok ys := by
  induction l with
  | nil => exact ⟨[], rfl⟩
  | cons a l ih =>
    obtain ⟨y, hy⟩ := h a (List.mem_cons_self a l)
    obtain ⟨ys, hys⟩ := ih (fun x hx => h x (List.mem_cons_of_mem a hx))
    refine ⟨y :: ys, ?_⟩
    unfold exceptMap
    rw [hy, hys]
    rfl

theorem exceptMap_mem_ok {α β : Type} (f : α → Except PyError β) (l : List α)
    (ys : List β) (h : exceptMap f l = .ok ys) :
    ∀ y ∈ ys, ∃ x ∈ l, f x = .ok y := by
  induction l generalizing ys with
  | nil =>
    unfold exceptMap at h
    cases h
    intro y hy
    cases hy
  | cons a l ih =>
    unfold exceptMap at h
    cases ha : f a with
    | error e => rw [ha] at h; cases h
    | ok y0 =>
      rw [ha] at h
      cases hl : exceptMap f l with
      | error e => rw [hl] at h; cases h
      | ok ys0 =>
        rw [hl] at h
        cases h
        intro y hy
        rcases List.mem_cons.mp hy with h1 | h1
        · exact ⟨a, List.mem_cons_self a l, h1 ▸ ha⟩
        · obtain ⟨x, hx, hfx⟩ := ih ys0 hl y h1
          exact ⟨x, List.mem_cons_of_mem a hx, hfx⟩

theorem exceptMap_error_uniform {α β : Type} (f : α → Except PyError β)
    (e : PyError) (l : List α)
    (hall : ∀ x ∈ l, (∃ y, f x = .ok y) ∨ f x = .error e)
    (hex : ∃ x ∈ l, f x = .error e) :
    exceptMap f l = .error e := by
  induction l with
  | nil => rcases hex with ⟨x, hx, _⟩; cases hx
  | cons a l ih =>
    rcases hall a (List.mem_cons_self a l) with ⟨y, hy⟩ | hy
    · have htail : ∃ x ∈ l, f x = .error e := by
        rcases hex with ⟨x, hx, hfx⟩
        rcases List.mem_cons.mp hx with h1 | h1
        · rw [h1] at hfx; rw [hfx] at hy; cases hy
        · exact ⟨x, h1, hfx⟩
      have := ih (fun x hx => hall x (List.mem_cons_of_mem a hx)) htail
      unfold exceptMap
      rw [hy, this]
      rfl
    · unfold exceptMap
      rw [hy]
      rfl

theorem toLeaf_error (l : RawLeaf) (h : l.categories = none) :
    toLeaf l = .error (PyError.keyError "categories") := by
  unfold toLeaf; rw [h]; rfl

theorem toLeaf_ok (l : RawLeaf) (h : l.categories ≠ none) :
    ∃ y, toLeaf l = .ok y := by
  unfold toLeaf
  cases hc : l.categories with
  | none => exact absurd hc h
  | some cs => exact ⟨_, rfl⟩

theorem cleanIncomeLeaf_error (l : RawLeaf) (h1 : l.agg = none)
    (h2 : l.categories = none) :
    cleanIncomeLeaf l = .error (PyError.keyError "categories") := by
  unfold cleanIncomeLeaf
  rw [h1, h2]
  rfl

theorem cleanIncomeLeaf_cases (l : RawLeaf) :
    (∃ y, cleanIncomeLeaf l = .ok y) ∨
      cleanIncomeLeaf l = .error (PyError.keyError "categories") := by
  unfold cleanIncomeLeaf
  cases ha : l.agg with
  | some a => exact Or.inl ⟨_, rfl⟩
  | none =>
    cases hc : l.categories with
    | some cs => exact Or.inl ⟨_, rfl⟩
    | none => exact Or.inr rfl

theorem cleanCashflowLeaf_categories (l : RawLeaf) :
    (cleanCashflowLeaf l).categories = l.categories := rfl

/-- C1, counterexample: the final sentence of the claim fails on the code.
With leaf labels `x` (non-empty), logic `not`, and a record carrying no
labels at all, the record is selected (its empty label set is disjoint from
every set), and the spec-side label-match condition also holds, although the
leaf label set is not empty — contradicting the assertion that a record with
an empty label set satisfies the label match only when the leaf labels are
empty. -/
theorem c1_counterexample :
    txnSelected (fun s => if s == "realized" then ["Checking"] else [])
        ⟨"transactions", ["Rent"], ["x"], "not", [1], "realized"⟩
        ⟨0, 5, "Rent", "Checking", []⟩ = true
    ∧ (Txn.mk 0 5 "Rent" "Checking" []).labels = []
    ∧ (Leaf.mk "transactions" ["Rent"] ["x"] "not" [1] "realized").labels ≠ []
    ∧ labelMatchSpec ⟨"transactions", ["Rent"], ["x"], "not", [1], "realized"⟩
        ⟨0, 5, "Rent", "Checking", []⟩ := by
  refine ⟨by decide, by decide, by decide, by decide⟩

/-- C1, amended: for a transaction-sourced leaf with logic empty or `not`, a
record is selected iff its category is among the leaf categories, its
account is in the tax-type table entry of the leaf, and the label-match
condition of the claim holds; and a record whose own label set is empty
satisfies the label match exactly when the leaf label set is empty or the
logic is `not` (rather than only when the leaf label set is empty). -/
theorem c1_selection (taxTbl : String → List String) (leaf : Leaf) (t : Txn)
    (hlogic : leaf.logic = "" ∨ leaf.logic = "not") :
    (txnSelected taxTbl leaf t = true ↔
      (t.category ∈ leaf.categories ∧ t.account ∈ taxTbl leaf.tax_type ∧
        labelMatchSpec leaf t))
    ∧ (t.labels = [] →
        (labelMatchSpec leaf t ↔ (leaf.labels = [] ∨ leaf.logic = "not"))) := by
  constructor
  · unfold txnSelected labelMatchSpec labelsDisjoint
    rcases hlogic with h | h <;> rw [h] <;>
      by_cases hl : leaf.labels = [] <;>
        simp [hl, List.isEmpty_iff, and_assoc]
  · intro ht
    unfold labelMatchSpec
    rcases hlogic with h | h <;> rw [h, ht] <;>
      by_cases hl : leaf.labels = [] <;> simp [hl]

/-- C1, witness: the amended statement applied to a concrete leaf/record. -/
theorem c1_selection_witness :
    ((("" : String) = "" ∨ ("" : String) = "not"))
    ∧ ((txnSelected (fun _ => ["A"])
          ⟨"transactions", ["C"], [], "", [], "realized"⟩
          ⟨0, 1, "C", "A", []⟩ = true ↔
        ("C" ∈ ["C"] ∧ "A" ∈ (["A"] : List String) ∧
          labelMatchSpec ⟨"transactions", ["C"], [], "", [], "realized"⟩
            ⟨0, 1, "C", "A", []⟩))
      ∧ (([] : List String) = [] →
          (labelMatchSpec ⟨"transactions", ["C"], [], "", [], "realized"⟩
              ⟨0, 1, "C", "A", []⟩ ↔
            (([] : List String) = [] ∨ ("" : String) = "not")))) :=
  ⟨Or.inl rfl, c1_selection (fun _ => ["A"]) _ _ (Or.inl rfl)⟩

theorem okBind {α β : Type} (a : α) (f : α → Except PyError β) :
    (Except.ok a : Except PyError α) >>= f = f a := rfl

theorem bind_pair_ok {β : Type} (k : Key) (m : Except PyError β) (y : β)
    (h : m = .ok y) :
    (do pure (k, ← m) : Except PyError (Key × β)) = .ok (k, y) := by
  rw [h]; rfl

theorem bind_pair_error {β : Type} (k : Key) (m : Except PyError β)
    (e : PyError) (h : m = .error e) :
    (do pure (k, ← m) : Except PyError (Key × β)) = .error e := by
  rw [h]; rfl

theorem cleanIncomeLeaf_ok (l : RawLeaf)
    (h : l.categories ≠ none ∨ l.agg ≠ none) :
    ∃ y, cleanIncomeLeaf l = .ok y := by
  unfold cleanIncomeLeaf
  cases ha : l.agg with
  | some a => exact ⟨_, rfl⟩
  | none =>
    cases hc : l.categories with
    | some cs => exact ⟨_, rfl⟩
    | none => rcases h with h | h; exacts [absurd hc h, absurd ha h]

theorem cleanIncomeLeaf_ok_categories (l y : RawLeaf)
    (h : cleanIncomeLeaf l = .ok y) : y.categories = l.categories := by
  unfold cleanIncomeLeaf at h
  cases ha : l.agg with
  | some a => rw [ha] at h; cases h; rfl
  | none =>
    cases hc : l.categories with
    | some cs => rw [ha, hc] at h; cases h; rfl
    | none => rw [ha, hc] at h; cases h

theorem cleanIncomeTree_error (tree : RawTree)
    (hbad : ∃ kl ∈ tree, kl.2.categories = none ∧ kl.2.agg = none) :
    cleanIncomeTree tree = .error (PyError.keyError "categories") := by
  unfold cleanIncomeTree
  apply exceptMap_error_uniform
  · intro kl _
    rcases cleanIncomeLeaf_cases kl.2 with ⟨y, hy⟩ | hy
    · exact Or.inl ⟨(kl.1, y), bind_pair_ok _ _ _ hy⟩
    · exact Or.inr (bind_pair_error _ _ _ hy)
  · rcases hbad with ⟨kl, hm, h1, h2⟩
    exact ⟨kl, hm, bind_pair_error _ _ _ (cleanIncomeLeaf_error kl.2 h2 h1)⟩

theorem cleanIncomeTree_ok (tree : RawTree)
    (hgood : ∀ kl ∈ tree, kl.2.categories ≠ none) :
    ∃ t2, cleanIncomeTree tree = .ok t2 ∧
      ∀ kl2 ∈ t2, kl2.2.categories ≠ none := by
  obtain ⟨t2, ht2⟩ := exceptMap_ok _ tree (fun kl hkl => by
    obtain ⟨y, hy⟩ := cleanIncomeLeaf_ok kl.2 (Or.inl (hgood kl hkl))
    exact ⟨(kl.1, y), bind_pair_ok _ _ _ hy⟩)
  refine ⟨t2, ht2, ?_⟩
  intro kl2 hkl2
  obtain ⟨kl, hkl, hf⟩ := exceptMap_mem_ok _ tree t2 ht2 kl2 hkl2
  cases hcl : cleanIncomeLeaf kl.2 with
  | error e => rw [bind_pair_error kl.1 _ _ hcl] at hf; cases hf
  | ok y =>
    rw [bind_pair_ok kl.1 _ _ hcl] at hf
    cases hf
    have := cleanIncomeLeaf_ok_categories kl.2 y hcl
    simpa [this] using hgood kl hkl

theorem dateRangeDesc_ok (txns : List Txn) (htx : txns ≠ []) :
    ∃ range, dateRangeDesc txns = .ok range := by
  unfold dateRangeDesc
  rw [List.head?_eq_head htx, List.getLast?_eq_getLast txns htx]
  exact ⟨_, rfl⟩

theorem payDayValue_eq_zero (pays : List Paycheck) (leaf : Leaf) (d : Int)
    (h : ∀ p ∈ pays, p.date ≠ d) : payDayValue pays leaf d = 0 := by
  unfold payDayValue
  have hf : pays.filter (fun p => p.date == d) = [] := by
    rw [List.filter_eq_nil_iff]
    intro p hp hb
    exact h p hp (by simpa using hb)
  rw [hf]
  rfl

theorem smoothSummary_length (s : List SummaryRow) :
    (smoothSummary s).length = s.length := by
  unfold smoothSummary
  rw [List.length_map, List.enum_length]

theorem smoothSummary_getElem (s : List SummaryRow) (i : Nat) :
    (smoothSummary s)[i]? = (s[i]?).map (smoothRow s i) := by
  unfold smoothSummary
  rw [List.getElem?_map, List.getElem?_enum]
  cases s[i]? <;> rfl

theorem calcMetrics_fst (swr : ℚ) (s : List SummaryRow) (i : Nat) :
    (calcMetrics swr s).1[i]? = (s[i]?).map (smoothRow s i) :=
  smoothSummary_getElem s i

theorem calcCashflow_ok (taxTbl : String → List String) (txns : List Txn)
    (tree : RawTree) (hcats : ∀ kl ∈ tree, kl.2.categories ≠ none)
    (htx : txns ≠ []) :
    ∃ range out, dateRangeDesc txns = .ok range ∧
      calcCashflow taxTbl txns tree = .ok (cleanCashflowTree tree, out) ∧
      ∀ kv ∈ out, ∃ rl leaf, (kv.1, rl) ∈ cleanCashflowTree tree
        ∧ toLeaf rl = .ok leaf
        ∧ kv.2 = leafSeries range (txnDayValue taxTbl txns leaf) := by
  obtain ⟨sel, hsel⟩ := exceptMap_ok
      (fun kl => do pure (kl.1, ← toLeaf kl.2)) (cleanCashflowTree tree)
      (fun kl hkl => by
        obtain ⟨kl0, hkl0, hklE⟩ := List.mem_map.mp hkl
        have hc : kl.2.categories ≠ none := by
          rw [← hklE]
          simpa [cleanCashflowLeaf_categories] using hcats kl0 hkl0
        obtain ⟨y, hy⟩ := toLeaf_ok kl.2 hc
        exact ⟨(kl.1, y), bind_pair_ok _ _ _ hy⟩)
  obtain ⟨range, hrange⟩ := dateRangeDesc_ok txns htx
  refine ⟨range,
    sel.map (fun kl => (kl.1, leafSeries range (txnDayValue taxTbl txns kl.2))),
    hrange, ?_, ?_⟩
  · unfold calcCashflow
    simp only [hsel, hrange, okBind]
    rfl
  · intro kv hkv
    obtain ⟨s, hsmem, hs⟩ := List.mem_map.mp hkv
    obtain ⟨kl, hkl, hf⟩ :=
      exceptMap_mem_ok _ (cleanCashflowTree tree) sel hsel s hsmem
    cases h2 : toLeaf kl.2 with
    | error e => rw [bind_pair_error kl.1 _ _ h2] at hf; cases hf
    | ok y =>
      rw [bind_pair_ok kl.1 _ _ h2] at hf
      cases hf
      refine ⟨kl.2, y, ?_, h2, ?_⟩
      · rw [← hs]
        exact hkl
      · rw [← hs]

theorem calcIncome_ok (taxTbl : String → List String) (txns : List Txn)
    (pays : List Paycheck) (tree : RawTree)
    (hcats : ∀ kl ∈ tree, kl.2.categories ≠ none) (htx : txns ≠ []) :
    ∃ t2 range out, cleanIncomeTree tree = .ok t2 ∧
      dateRangeDesc txns = .ok range ∧
      calcIncome taxTbl txns pays tree = .ok (t2, out) ∧
      ∀ kv ∈ out, ∃ rl leaf, (kv.1, rl) ∈ t2
        ∧ toLeaf rl = .ok leaf
        ∧ kv.2 = leafSeries range
          (if leaf.source == "transactions" then txnDayValue taxTbl txns leaf
           else payDayValue pays leaf) := by
  obtain ⟨t2, ht2, ht2c⟩ := cleanIncomeTree_ok tree hcats
  obtain ⟨sel, hsel⟩ := exceptMap_ok
      (fun kl => do pure (kl.1, ← toLeaf kl.2)) t2
      (fun kl hkl => by
        obtain ⟨y, hy⟩ := toLeaf_ok kl.2 (ht2c kl hkl)
        exact ⟨(kl.1, y), bind_pair_ok _ _ _ hy⟩)
  obtain ⟨range, hrange⟩ := dateRangeDesc_ok txns htx
  refine ⟨t2, range,
    sel.map (fun kl =>
      (kl.1, leafSeries range
        (if kl.2.source == "transactions" then txnDayValue taxTbl txns kl.2
         else payDayValue pays kl.2))),
    ht2, hrange, ?_, ?_⟩
  · unfold calcIncome
    simp only [ht2, hsel, hrange, okBind]
    rfl
  · intro kv hkv
    obtain ⟨s, hsmem, hs⟩ := List.mem_map.mp hkv
    obtain ⟨kl, hkl, hf⟩ := exceptMap_mem_ok _ t2 sel hsel s hsmem
    cases h2 : toLeaf kl.2 with
    | error e => rw [bind_pair_error kl.1 _ _ h2] at hf; cases hf
    | ok y =>
      rw [bind_pair_ok kl.1 _ _ h2] at hf
      cases hf
      refine ⟨kl.2, y, ?_, h2, ?_⟩
      · rw [← hs]
        exact hkl
      · rw [← hs]

/-- C4, counterexample: the claim is false for `calc_cashflow`, whose
default-filling pass does not read the `categories` key at all: on a tree
whose only leaf lacks `categories`, the pass completes normally and returns
the default-filled tree, rather than failing with any error (the missing key
is only hit later, during aggregation, and there is no ConfigError class in
the module). -/
theorem c4_counterexample :
    cleanCashflowTree
        [(("Outflow", "Operating", "Rent"), ⟨none, none, none, none, none, none⟩)]
      = [(("Outflow", "Operating", "Rent"),
          ⟨none, none, some [], some "", none, some "realized"⟩)] := rfl

/-- C4, amended: on a tree containing a leaf with neither `categories` nor a
user-supplied weight vector, the default-filling pass of `calc_income` fails
with `KeyError(categories)` (raised while building the default weight
vector, before any aggregation), and the whole of `calc_income` reports the
same error; `calc_cashflow` also fails with `KeyError(categories)`, but only
during aggregation, after its default-filling pass has completed.  No
`ConfigError` exists in the module. -/
theorem c4_keyerror (taxTbl : String → List String) (txns : List Txn)
    (pays : List Paycheck) (tree : RawTree)
    (hbad : ∃ kl ∈ tree, kl.2.categories = none ∧ kl.2.agg = none) :
    cleanIncomeTree tree = .error (PyError.keyError "categories")
    ∧ calcIncome taxTbl txns pays tree = .error (PyError.keyError "categories")
    ∧ calcCashflow taxTbl txns tree = .error (PyError.keyError "categories") := by
  have h1 := cleanIncomeTree_error tree hbad
  refine ⟨h1, ?_, ?_⟩
  · unfold calcIncome
    rw [h1]
    rfl
  · unfold calcCashflow
    have h2 : exceptMap (fun kl => do pure (kl.1, ← toLeaf kl.2))
        (cleanCashflowTree tree) = .error (PyError.keyError "categories") := by
      apply exceptMap_error_uniform
      · intro kl _
        by_cases hc : kl.2.categories = none
        · exact Or.inr (bind_pair_error _ _ _ (toLeaf_error kl.2 hc))
        · obtain ⟨y, hy⟩ := toLeaf_ok kl.2 hc
          exact Or.inl ⟨(kl.1, y), bind_pair_ok _ _ _ hy⟩
      · rcases hbad with ⟨kl, hm, h1c, _⟩
        refine ⟨(kl.1, cleanCashflowLeaf kl.2), List.mem_map.mpr ⟨kl, hm, rfl⟩, ?_⟩
        exact bind_pair_error _ _ _ (toLeaf_error _
          (by rw [cleanCashflowLeaf_categories]; exact h1c))
    simp only [h2, okBind]
    rfl

/-- C4, witness: the amended statement applied to a one-leaf tree lacking
`categories`. -/
theorem c4_keyerror_witness :
    (∃ kl ∈ ([(("A", "B", "C"), ⟨none, none, none, none, none, none⟩)] : RawTree),
        kl.2.categories = none ∧ kl.2.agg = none)
    ∧ (cleanIncomeTree [(("A", "B", "C"), ⟨none, none, none, none, none, none⟩)]
          = .error (PyError.keyError "categories")
      ∧ calcIncome (fun _ => []) [⟨0, 1, "X", "A", []⟩] []
          [(("A", "B", "C"), ⟨none, none, none, none, none, none⟩)]
          = .error (PyError.keyError "categories")
      ∧ calcCashflow (fun _ => []) [⟨0, 1, "X", "A", []⟩]
          [(("A", "B", "C"), ⟨none, none, none, none, none, none⟩)]
          = .error (PyError.keyError "categories")) :=
  ⟨by decide, c4_keyerror (fun _ => []) [⟨0, 1, "X", "A", []⟩] [] _ (by decide)⟩

/-- C5, counterexample: the computations do mutate the caller category tree.
On a tree whose single leaf omits the optional fields, `calc_cashflow`
returns successfully, and the post-call state of the caller tree (the first
component of the result) differs from the tree that was passed in: the
defaults have been written into the leaf. -/
theorem c5_counterexample :
    calcCashflow (fun _ => []) [⟨0, 5, "Food", "Checking", []⟩]
        [(("Outflow", "Operating", "Rent"),
          ⟨none, some ["Rent"], none, none, none, none⟩)]
      = .ok ([(("Outflow", "Operating", "Rent"),
               ⟨none, some ["Rent"], some [], some "", none, some "realized"⟩)],
             [(("Outflow", "Operating", "Rent"), [((0 : Int), (0 : ℚ))])])
    ∧ ([(("Outflow", "Operating", "Rent"),
         (⟨none, some ["Rent"], some [], some "", none, some "realized"⟩ : RawLeaf))] : RawTree)
      ≠ [(("Outflow", "Operating", "Rent"),
          ⟨none, some ["Rent"], none, none, none, none⟩)] :=
  ⟨rfl, by decide⟩

/-- C5, amended: the outputs are newly built tables, but the caller category
tree is updated in place: after a successful call to `calc_cashflow` the
caller tree equals its cashflow default-fill, and after a successful call to
`calc_income` it equals the income default-fill; the record tables are read
only.  `calc_metrics` likewise mutates its input: the post-call summary has
the same length, keeps the dates, the three stock columns and the credit
line of each row, but its six flow columns are overwritten with their
expanding means (the mean of the first i + 1 values at row i). -/
theorem c5_tree_mutation (taxTbl : String → List String) (txns : List Txn)
    (pays : List Paycheck) (tree : RawTree) (swr : ℚ)
    (summary : List SummaryRow)
    (hcats : ∀ kl ∈ tree, kl.2.categories ≠ none) (htx : txns ≠ []) :
    (∃ out, calcCashflow taxTbl txns tree = .ok (cleanCashflowTree tree, out))
    ∧ (∃ t2 out, cleanIncomeTree tree = .ok t2 ∧
        calcIncome taxTbl txns pays tree = .ok (t2, out))
    ∧ (calcMetrics swr summary).1.length = summary.length
    ∧ ∀ i : Nat,
        ((calcMetrics swr summary).1[i]?).map
            (fun r => (r.date, r.assets, r.debts, r.net, r.creditLine))
          = (summary[i]?).map
            (fun r => (r.date, r.assets, r.debts, r.net, r.creditLine))
        ∧ ((calcMetrics swr summary).1[i]?).map (fun r => r.totalIncome)
          = (summary[i]?).map (fun _ =>
              ((summary.map (fun x => x.totalIncome)).take (i + 1)).sum
                / ((i : ℚ) + 1))
        ∧ ((calcMetrics swr summary).1[i]?).map (fun r => r.realizedIncome)
          = (summary[i]?).map (fun _ =>
              ((summary.map (fun x => x.realizedIncome)).take (i + 1)).sum
                / ((i : ℚ) + 1))
        ∧ ((calcMetrics swr summary).1[i]?).map (fun r => r.expenseLoans)
          = (summary[i]?).map (fun _ =>
              ((summary.map (fun x => x.expenseLoans)).take (i + 1)).sum
                / ((i : ℚ) + 1))
        ∧ ((calcMetrics swr summary).1[i]?).map (fun r => r.expense)
          = (summary[i]?).map (fun _ =>
              ((summary.map (fun x => x.expense)).take (i + 1)).sum
                / ((i : ℚ) + 1))
        ∧ ((calcMetrics swr summary).1[i]?).map (fun r => r.taxes)
          = (summary[i]?).map (fun _ =>
              ((summary.map (fun x => x.taxes)).take (i + 1)).sum
                / ((i : ℚ) + 1))
        ∧ ((calcMetrics swr summary).1[i]?).map (fun r => r.salesTax)
          = (summary[i]?).map (fun _ =>
              ((summary.map (fun x => x.salesTax)).take (i + 1)).sum
                / ((i : ℚ) + 1)) := by
  obtain ⟨range, out, _, hcf, _⟩ := calcCashflow_ok taxTbl txns tree hcats htx
  obtain ⟨t2, range2, out2, ht2, _, hinc, _⟩ :=
    calcIncome_ok taxTbl txns pays tree hcats htx
  refine ⟨⟨out, hcf⟩, ⟨t2, out2, ht2, hinc⟩, smoothSummary_length summary, ?_⟩
  intro i
  refine ⟨?_, ?_, ?_, ?_, ?_, ?_, ?_⟩ <;>
    (rw [calcMetrics_fst]; cases summary[i]? <;> rfl)

/-- C5, witness: the amended statement applied to a one-leaf tree, a
one-record transaction table and a one-row summary. -/
theorem c5_tree_mutation_witness :
    (∀ kl ∈ ([(("Outflow", "Operating", "Rent"),
        ⟨none, some ["Rent"], none, none, none, none⟩)] : RawTree),
      kl.2.categories ≠ none)
    ∧ ([(⟨0, 5, "Food", "Checking", []⟩ : Txn)] ≠ [])
    ∧ ((∃ out, calcCashflow (fun _ => []) [⟨0, 5, "Food", "Checking", []⟩]
          [(("Outflow", "Operating", "Rent"),
            ⟨none, some ["Rent"], none, none, none, none⟩)]
          = .ok (cleanCashflowTree
              [(("Outflow", "Operating", "Rent"),
                ⟨none, some ["Rent"], none, none, none, none⟩)], out))
      ∧ (∃ t2 out, cleanIncomeTree
            [(("Outflow", "Operating", "Rent"),
              ⟨none, some ["Rent"], none, none, none, none⟩)] = .ok t2 ∧
          calcIncome (fun _ => []) [⟨0, 5, "Food", "Checking", []⟩] []
            [(("Outflow", "Operating", "Rent"),
              ⟨none, some ["Rent"], none, none, none, none⟩)] = .ok (t2, out))
      ∧ (calcMetrics 0
            [⟨0, 1, 0, 1, 2, 2, 2, 2, 2, 2, 1⟩]).1.length
          = ([⟨0, 1, 0, 1, 2, 2, 2, 2, 2, 2, 1⟩] : List SummaryRow).length
      ∧ ∀ i : Nat,
          ((calcMetrics 0 [⟨0, 1, 0, 1, 2, 2, 2, 2, 2, 2, 1⟩]).1[i]?).map
              (fun r => (r.date, r.assets, r.debts, r.net, r.creditLine))
            = (([⟨0, 1, 0, 1, 2, 2, 2, 2, 2, 2, 1⟩] :
                List SummaryRow)[i]?).map
              (fun r => (r.date, r.assets, r.debts, r.net, r.creditLine))
          ∧ ((calcMetrics 0 [⟨0, 1, 0, 1, 2, 2, 2, 2, 2, 2, 1⟩]).1[i]?).map
              (fun r => r.totalIncome)
            = (([⟨0, 1, 0, 1, 2, 2, 2, 2, 2, 2, 1⟩] :
                List SummaryRow)[i]?).map (fun _ =>
                ((([⟨0, 1, 0, 1, 2, 2, 2, 2, 2, 2, 1⟩] :
                  List SummaryRow).map (fun x => x.totalIncome)).take
                    (i + 1)).sum / ((i : ℚ) + 1))
          ∧ ((calcMetrics 0 [⟨0, 1, 0, 1, 2, 2, 2, 2, 2, 2, 1⟩]).1[i]?).map
              (fun r => r.realizedIncome)
            = (([⟨0, 1, 0, 1, 2, 2, 2, 2, 2, 2, 1⟩] :
                List SummaryRow)[i]?).map (fun _ =>
                ((([⟨0, 1, 0, 1, 2, 2, 2, 2, 2, 2, 1⟩] :
                  List SummaryRow).map (fun x => x.realizedIncome)).take
                    (i + 1)).sum / ((i : ℚ) + 1))
          ∧ ((calcMetrics 0 [⟨0, 1, 0, 1, 2, 2, 2, 2, 2, 2, 1⟩]).1[i]?).map
              (fun r => r.expenseLoans)
            = (([⟨0, 1, 0, 1, 2, 2, 2, 2, 2, 2, 1⟩] :
                List SummaryRow)[i]?).map (fun _ =>
                ((([⟨0, 1, 0, 1, 2, 2, 2, 2, 2, 2, 1⟩] :
                  List SummaryRow).map (fun x => x.expenseLoans)).take
                    (i + 1)).sum / ((i : ℚ) + 1))
          ∧ ((calcMetrics 0 [⟨0, 1, 0, 1, 2, 2, 2, 2, 2, 2, 1⟩]).1[i]?).map
              (fun r => r.expense)
            = (([⟨0, 1, 0, 1, 2, 2, 2, 2, 2, 2, 1⟩] :
                List SummaryRow)[i]?).map (fun _ =>
                ((([⟨0, 1, 0, 1, 2, 2, 2, 2, 2, 2, 1⟩] :
                  List SummaryRow).map (fun x => x.expense)).take
                    (i + 1)).sum / ((i : ℚ) + 1))
          ∧ ((calcMetrics 0 [⟨0, 1, 0, 1, 2, 2, 2, 2, 2, 2, 1⟩]).1[i]?).map
              (fun r => r.taxes)
            = (([⟨0, 1, 0, 1, 2, 2, 2, 2, 2, 2, 1⟩] :
                List SummaryRow)[i]?).map (fun _ =>
                ((([⟨0, 1, 0, 1, 2, 2, 2, 2, 2, 2, 1⟩] :
                  List SummaryRow).map (fun x => x.taxes)).take
                    (i + 1)).sum / ((i : ℚ) + 1))
          ∧ ((calcMetrics 0 [⟨0, 1, 0, 1, 2, 2, 2, 2, 2, 2, 1⟩]).1[i]?).map
              (fun r => r.salesTax)
            = (([⟨0, 1, 0, 1, 2, 2, 2, 2, 2, 2, 1⟩] :
                List SummaryRow)[i]?).map (fun _ =>
                ((([⟨0, 1, 0, 1, 2, 2, 2, 2, 2, 2, 1⟩] :
                  List SummaryRow).map (fun x => x.salesTax)).take
                    (i + 1)).sum / ((i : ℚ) + 1))) :=
  ⟨by decide, by decide,
    c5_tree_mutation (fun _ => []) [⟨0, 5, "Food", "Checking", []⟩] [] _
      0 [⟨0, 1, 0, 1, 2, 2, 2, 2, 2, 2, 1⟩] (by decide) (by decide)⟩

theorem leafSeries_dates (range : List Int) (f : Int → ℚ) :
    (leafSeries range f).map (fun e => e.1) = range := by
  unfold leafSeries
  rw [List.map_map]
  exact List.map_id range

theorem mem_leafSeries_date (range : List Int) (f : Int → ℚ) (d : Int) :
    (∃ e ∈ leafSeries range f, e.1 = d) ↔ d ∈ range := by
  simp [leafSeries]

theorem txnDayValue_eq_zero (taxTbl : String → List String) (txns : List Txn)
    (leaf : Leaf) (d : Int)
    (h : ∀ t ∈ txns, ¬(txnSelected taxTbl leaf t = true ∧ t.date = d)) :
    txnDayValue taxTbl txns leaf d = 0 := by
  unfold txnDayValue
  have hf : txns.filter (fun t => txnSelected taxTbl leaf t && t.date == d) = [] := by
    rw [List.filter_eq_nil_iff]
    intro t ht hb
    rw [Bool.and_eq_true] at hb
    exact h t ht ⟨hb.1, by simpa using hb.2⟩
  rw [hf]
  rfl

theorem dateRange_spec (txns : List Txn) (htx : txns ≠ [])
    (hle : (txns.getLast htx).date ≤ (txns.head htx).date) :
    ∃ range, dateRangeDesc txns = .ok range ∧
      range.length
        = ((txns.head htx).date - (txns.getLast htx).date).toNat + 1 ∧
      (∀ d : Int, d ∈ range ↔
        ((txns.getLast htx).date ≤ d ∧ d ≤ (txns.head htx).date)) ∧
      range.Nodup := by
  unfold dateRangeDesc
  rw [List.head?_eq_head htx, List.getLast?_eq_getLast txns htx]
  refine ⟨_, rfl, ?_, ?_, ?_⟩
  · rw [if_pos hle, List.length_map, List.length_range]
    omega
  · intro d
    rw [if_pos hle]
    simp only [List.mem_map, List.mem_range]
    constructor
    · rintro ⟨i, hi, rfl⟩
      omega
    · rintro ⟨h1, h2⟩
      exact ⟨(d - (txns.getLast htx).date).toNat, by omega, by omega⟩
  · rw [if_pos hle]
    refine List.Nodup.map ?_ (List.nodup_range _)
    intro a b hab
    have h2 : (a : Int) = b := by simpa using hab
    omega

/-- C3, counterexample: the daily index is built from the first and last rows
of the transactions table, not from its minimum and maximum dates.  On a
table sorted oldest-first (two records, dates 0 and 1), the range runs from
date 1 down to date 0 and is therefore empty, so every leaf series has
length 0 instead of the claimed (max - min).days + 1 = 2. -/
theorem c3_counterexample :
    calcCashflow (fun _ => []) [⟨0, 1, "X", "A", []⟩, ⟨1, 1, "X", "A", []⟩]
        [(("A", "B", "C"), ⟨none, some ["X"], none, none, none, none⟩)]
      = .ok ([(("A", "B", "C"),
               ⟨none, some ["X"], some [], some "", none, some "realized"⟩)],
             [(("A", "B", "C"), ([] : List (Int × ℚ)))])
    ∧ ([] : List (Int × ℚ)).length ≠ ((1 : Int) - 0).toNat + 1 :=
  ⟨rfl, by decide⟩

/-- C3, amended: provided the transactions table is ordered newest-first (its
first row carries the maximum date and its last row the minimum date, as the
ingestion layer produces it), `calc_cashflow` and `calc_income` succeed on
every tree whose leaves carry `categories`, and every column of either
output table has exactly one entry per calendar day from the minimum to the
maximum transaction date — length (max - min).days + 1, no duplicate days,
no missing days.  Each output column is computed from the normalized leaf
stored under the same key in the returned tree, and a day holds a non-zero
value only when a record matches that day — a selected transaction for a
transaction-sourced leaf, a paycheck for a paycheck-sourced one — so a leaf
matching no record yields an all-zero series rather than an error. -/
theorem c3_daily_series (taxTbl : String → List String) (txns : List Txn)
    (pays : List Paycheck) (tree : RawTree) (htx : txns ≠ [])
    (hcats : ∀ kl ∈ tree, kl.2.categories ≠ none)
    (hmax : ∀ t ∈ txns, t.date ≤ (txns.head htx).date)
    (hmin : ∀ t ∈ txns, (txns.getLast htx).date ≤ t.date) :
    (∃ out, calcCashflow taxTbl txns tree = .ok (cleanCashflowTree tree, out) ∧
      ∀ kv ∈ out,
        kv.2.length
          = ((txns.head htx).date - (txns.getLast htx).date).toNat + 1
        ∧ (∀ d : Int, (∃ e ∈ kv.2, e.1 = d) ↔
            ((txns.getLast htx).date ≤ d ∧ d ≤ (txns.head htx).date))
        ∧ (kv.2.map (fun e => e.1)).Nodup
        ∧ ∃ rl leaf, (kv.1, rl) ∈ cleanCashflowTree tree
            ∧ toLeaf rl = .ok leaf
            ∧ ∀ e ∈ kv.2, e.2 ≠ 0 →
                ∃ t ∈ txns, txnSelected taxTbl leaf t = true ∧ t.date = e.1)
    ∧ (∃ t2 out, cleanIncomeTree tree = .ok t2 ∧
        calcIncome taxTbl txns pays tree = .ok (t2, out) ∧
      ∀ kv ∈ out,
        kv.2.length
          = ((txns.head htx).date - (txns.getLast htx).date).toNat + 1
        ∧ (∀ d : Int, (∃ e ∈ kv.2, e.1 = d) ↔
            ((txns.getLast htx).date ≤ d ∧ d ≤ (txns.head htx).date))
        ∧ (kv.2.map (fun e => e.1)).Nodup
        ∧ ∃ rl leaf, (kv.1, rl) ∈ t2
            ∧ toLeaf rl = .ok leaf
            ∧ ∀ e ∈ kv.2, e.2 ≠ 0 →
                ((leaf.source == "transactions") = true →
                  ∃ t ∈ txns, txnSelected taxTbl leaf t = true ∧ t.date = e.1)
                ∧ ((leaf.source == "transactions") = false →
                  ∃ p ∈ pays, p.date = e.1)) := by
  have hle : (txns.getLast htx).date ≤ (txns.head htx).date :=
    hmin _ (List.head_mem htx)
  obtain ⟨range, hrange, hlen, hmem, hnd⟩ := dateRange_spec txns htx hle
  constructor
  · obtain ⟨range2, out, hrange2, hcf, hout⟩ :=
      calcCashflow_ok taxTbl txns tree hcats htx
    rw [hrange] at hrange2
    cases hrange2
    refine ⟨out, hcf, ?_⟩
    intro kv hkv
    obtain ⟨rl, leaf, hrl, hok, hkv2⟩ := hout kv hkv
    refine ⟨?_, ?_, ?_, rl, leaf, hrl, hok, ?_⟩
    · rw [hkv2]
      unfold leafSeries
      rw [List.length_map, hlen]
    · intro d
      rw [hkv2, mem_leafSeries_date]
      exact hmem d
    · rw [hkv2, leafSeries_dates]
      exact hnd
    · intro e he hne
      rw [hkv2] at he
      unfold leafSeries at he
      obtain ⟨d0, _, rfl⟩ := List.mem_map.mp he
      by_contra hno
      push_neg at hno
      exact hne (txnDayValue_eq_zero taxTbl txns leaf d0
        (fun t ht hc => hno t ht hc.1 hc.2))
  · obtain ⟨t2, range2, out, ht2, hrange2, hinc, hout⟩ :=
      calcIncome_ok taxTbl txns pays tree hcats htx
    rw [hrange] at hrange2
    cases hrange2
    refine ⟨t2, out, ht2, hinc, ?_⟩
    intro kv hkv
    obtain ⟨rl, leaf, hrl, hok, hkv2⟩ := hout kv hkv
    refine ⟨?_, ?_, ?_, rl, leaf, hrl, hok, ?_⟩
    · rw [hkv2]
      unfold leafSeries
      rw [List.length_map, hlen]
    · intro d
      rw [hkv2, mem_leafSeries_date]
      exact hmem d
    · rw [hkv2, leafSeries_dates]
      exact hnd
    · intro e he hne
      rw [hkv2] at he
      unfold leafSeries at he
      obtain ⟨d0, _, rfl⟩ := List.mem_map.mp he
      constructor
      · intro hsrc
        by_contra hno
        push_neg at hno
        apply hne
        show (if (leaf.source == "transactions") = true
            then txnDayValue taxTbl txns leaf
            else payDayValue pays leaf) d0 = 0
        rw [if_pos hsrc]
        exact txnDayValue_eq_zero taxTbl txns leaf d0
          (fun t ht hc => hno t ht hc.1 hc.2)
      · intro hsrc
        by_contra hno
        push_neg at hno
        apply hne
        show (if (leaf.source == "transactions") = true
            then txnDayValue taxTbl txns leaf
            else payDayValue pays leaf) d0 = 0
        rw [if_neg (by simp [hsrc])]
        exact payDayValue_eq_zero pays leaf d0 hno

/-- C3, witness: the amended statement applied to a two-record, newest-first
transaction table, an empty paycheck table and a one-leaf tree. -/
theorem c3_daily_series_witness :
    (([⟨1, 1, "X", "A", []⟩, ⟨0, 1, "X", "A", []⟩] : List Txn) ≠ [])
    ∧ ((∃ out, calcCashflow (fun _ => ["A"])
          [⟨1, 1, "X", "A", []⟩, ⟨0, 1, "X", "A", []⟩]
          [(("A", "B", "C"), ⟨none, some ["X"], none, none, none, none⟩)]
          = .ok (cleanCashflowTree
              [(("A", "B", "C"), ⟨none, some ["X"], none, none, none, none⟩)],
              out)
        ∧ ∀ kv ∈ out,
            kv.2.length = ((([⟨1, 1, "X", "A", []⟩, ⟨0, 1, "X", "A", []⟩] :
                List Txn).head (by decide)).date
              - (([⟨1, 1, "X", "A", []⟩, ⟨0, 1, "X", "A", []⟩] :
                List Txn).getLast (by decide)).date).toNat + 1
            ∧ (∀ d : Int, (∃ e ∈ kv.2, e.1 = d) ↔
                ((([⟨1, 1, "X", "A", []⟩, ⟨0, 1, "X", "A", []⟩] :
                  List Txn).getLast (by decide)).date ≤ d ∧
                 d ≤ (([⟨1, 1, "X", "A", []⟩, ⟨0, 1, "X", "A", []⟩] :
                  List Txn).head (by decide)).date))
            ∧ (kv.2.map (fun e => e.1)).Nodup
            ∧ ∃ rl leaf, (kv.1, rl) ∈ cleanCashflowTree
                  [(("A", "B", "C"), ⟨none, some ["X"], none, none, none, none⟩)]
                ∧ toLeaf rl = .ok leaf
                ∧ ∀ e ∈ kv.2, e.2 ≠ 0 →
                    ∃ t ∈ [⟨1, 1, "X", "A", []⟩, ⟨0, 1, "X", "A", []⟩],
                      txnSelected (fun _ => ["A"]) leaf t = true ∧ t.date = e.1)
      ∧ (∃ t2 out, cleanIncomeTree
            [(("A", "B", "C"), ⟨none, some ["X"], none, none, none, none⟩)]
            = .ok t2
        ∧ calcIncome (fun _ => ["A"])
            [⟨1, 1, "X", "A", []⟩, ⟨0, 1, "X", "A", []⟩] []
            [(("A", "B", "C"), ⟨none, some ["X"], none, none, none, none⟩)]
            = .ok (t2, out)
        ∧ ∀ kv ∈ out,
            kv.2.length = ((([⟨1, 1, "X", "A", []⟩, ⟨0, 1, "X", "A", []⟩] :
                List Txn).head (by decide)).date
              - (([⟨1, 1, "X", "A", []⟩, ⟨0, 1, "X", "A", []⟩] :
                List Txn).getLast (by decide)).date).toNat + 1
            ∧ (∀ d : Int, (∃ e ∈ kv.2, e.1 = d) ↔
                ((([⟨1, 1, "X", "A", []⟩, ⟨0, 1, "X", "A", []⟩] :
                  List Txn).getLast (by decide)).date ≤ d ∧
                 d ≤ (([⟨1, 1, "X", "A", []⟩, ⟨0, 1, "X", "A", []⟩] :
                  List Txn).head (by decide)).date))
            ∧ (kv.2.map (fun e => e.1)).Nodup
            ∧ ∃ rl leaf, (kv.1, rl) ∈ t2
                ∧ toLeaf rl = .ok leaf
                ∧ ∀ e ∈ kv.2, e.2 ≠ 0 →
                    ((leaf.source == "transactions") = true →
                      ∃ t ∈ [⟨1, 1, "X", "A", []⟩, ⟨0, 1, "X", "A", []⟩],
                        txnSelected (fun _ => ["A"]) leaf t = true
                          ∧ t.date = e.1)
                    ∧ ((leaf.source == "transactions") = false →
                      ∃ p ∈ ([] : List Paycheck), p.date = e.1))) :=
  ⟨by decide,
    c3_daily_series (fun _ => ["A"])
      [⟨1, 1, "X", "A", []⟩, ⟨0, 1, "X", "A", []⟩] []
      [(("A", "B", "C"), ⟨none, some ["X"], none, none, none, none⟩)]
      (by decide) (by decide) (by decide) (by decide)⟩

/-- C10: the daily index of `calc_income` is built from the transaction date
range alone, so the values of a paycheck-sourced leaf on pay dates outside
that range are silently absent from the returned table: no row of the output
carries such a date. -/
theorem c10_paycheck_outside_range (taxTbl : String → List String)
    (txns : List Txn) (pays : List Paycheck) (tree : RawTree) (htx : txns ≠ [])
    (hcats : ∀ kl ∈ tree, kl.2.categories ≠ none)
    (hmax : ∀ t ∈ txns, t.date ≤ (txns.head htx).date)
    (hmin : ∀ t ∈ txns, (txns.getLast htx).date ≤ t.date) :
    ∃ t2 out, calcIncome taxTbl txns pays tree = .ok (t2, out) ∧
      ∀ p ∈ pays,
        (p.date < (txns.getLast htx).date ∨ (txns.head htx).date < p.date) →
        ∀ kv ∈ out, ∀ e ∈ kv.2, e.1 ≠ p.date := by
  have hle : (txns.getLast htx).date ≤ (txns.head htx).date :=
    hmin _ (List.head_mem htx)
  obtain ⟨range, hrange, _, hmem, _⟩ := dateRange_spec txns htx hle
  obtain ⟨t2, range2, out, ht2, hrange2, hinc, hout⟩ :=
    calcIncome_ok taxTbl txns pays tree hcats htx
  rw [hrange] at hrange2
  cases hrange2
  refine ⟨t2, out, hinc, ?_⟩
  intro p _ hp kv hkv e he
  obtain ⟨rl, leaf, _, _, hkv2⟩ := hout kv hkv
  rw [hkv2] at he
  unfold leafSeries at he
  obtain ⟨d0, hd0, rfl⟩ := List.mem_map.mp he
  have := (hmem d0).mp hd0
  intro hde
  rcases hp with hp | hp <;> omega

/-- C10, witness: the statement applied to a one-record transaction table and
a paycheck record dated outside the transaction range. -/
theorem c10_paycheck_outside_range_witness :
    (([⟨1, 1, "X", "A", []⟩] : List Txn) ≠ [])
    ∧ (∃ t2 out, calcIncome (fun _ => ["A"]) [⟨1, 1, "X", "A", []⟩]
        [⟨5, [("P", 3)]⟩]
        [(("Revenue", "Operating", "Pay"),
          ⟨some "paycheck", some ["P"], none, none, none, none⟩)]
        = .ok (t2, out)
      ∧ ∀ p ∈ ([⟨5, [("P", 3)]⟩] : List Paycheck),
          (p.date < (([⟨1, 1, "X", "A", []⟩] : List Txn).getLast (by decide)).date
            ∨ (([⟨1, 1, "X", "A", []⟩] : List Txn).head (by decide)).date < p.date) →
          ∀ kv ∈ out, ∀ e ∈ kv.2, e.1 ≠ p.date) :=
  ⟨by decide,
    c10_paycheck_outside_range (fun _ => ["A"]) _ [⟨5, [("P", 3)]⟩] _
      (by decide) (by decide) (by decide) (by decide)⟩

theorem find?_date_unique (nw : List (Int × ℚ)) (r0 : Int × ℚ) (h : r0 ∈ nw)
    (hnd : (nw.map (fun r => r.1)).Nodup) :
    nw.find? (fun r => r.1 == r0.1) = some r0 := by
  induction nw with
  | nil => cases h
  | cons a l ih =>
    have hnd2 := List.pairwise_cons.mp hnd
    rcases List.mem_cons.mp h with rfl | h1
    · exact List.find?_cons_of_pos _ (by simp)
    · have hne : ¬((fun (r : Int × ℚ) => r.1 == r0.1) a) = true := by
        simp only [beq_iff_eq]
        intro he
        exact hnd2.1 r0.1 (List.mem_map.mpr ⟨r0, h1, rfl⟩) he
      have hstep : List.find? (fun r => r.1 == r0.1) (a :: l)
          = List.find? (fun r => r.1 == r0.1) l :=
        List.find?_cons_of_neg _ hne
      rw [hstep]
      exact ih h1 hnd2.2

theorem find?_first_date (p : Int × ℚ → Bool) (nw : List (Int × ℚ))
    (r0 : Int × ℚ) (hfind : nw.find? p = some r0)
    (hsort : (nw.map (fun r => r.1)).Pairwise (· < ·)) :
    ∀ r ∈ nw, p r = true → r0.1 ≤ r.1 := by
  induction nw with
  | nil => cases hfind
  | cons a l ih =>
    have hs := List.pairwise_cons.mp hsort
    by_cases hp : p a
    · rw [List.find?_cons_of_pos _ hp] at hfind
      cases hfind
      intro r hr _
      rcases List.mem_cons.mp hr with rfl | h1
      · exact le_refl _
      · exact le_of_lt (hs.1 r.1 (List.mem_map.mpr ⟨r, h1, rfl⟩))
    · rw [List.find?_cons_of_neg _ hp] at hfind
      intro r hr hpr
      rcases List.mem_cons.mp hr with rfl | h1
      · exact absurd hpr hp
      · exact ih hfind hs.2 r h1 hpr

/-- C9: milestone rows.  For a chronologically ordered, non-empty net-worth
series: a threshold no day reaches yields a row with null Date, Age and
Years whose Actual is the strictly negative shortfall against the current
(last) Net value; a threshold some day reaches yields a row whose Date is
the first such day (non-null), whose Actual is at least the threshold, and
whose Age and Years are non-null. -/
theorem c9_milestones (getAge : Int → ℚ) (today : Int) (nw : List (Int × ℚ))
    (ms : List ℚ) (hne : nw ≠ [])
    (hsort : (nw.map (fun r => r.1)).Pairwise (· < ·)) :
    getMilestones getAge today nw ms = ms.map (milestoneRow getAge today nw)
    ∧ ∀ m ∈ ms,
      ((∀ r ∈ nw, r.2 < m) →
        milestoneRow getAge today nw m =
          { date := none, milestone := m,
            actual := -(m - (nw.getLast hne).2), age := none, years := none }
        ∧ -(m - (nw.getLast hne).2) < 0)
      ∧ ((∃ r ∈ nw, m ≤ r.2) →
        ∃ d : Int, (milestoneRow getAge today nw m).date = some d
          ∧ m ≤ (milestoneRow getAge today nw m).actual
          ∧ (∀ r ∈ nw, m ≤ r.2 → d ≤ r.1)
          ∧ (milestoneRow getAge today nw m).age ≠ none
          ∧ (milestoneRow getAge today nw m).years ≠ none) := by
  refine ⟨rfl, ?_⟩
  intro m _
  constructor
  · intro hlt
    have hfind : nw.find? (fun r => decide (m ≤ r.2)) = none := by
      rw [List.find?_eq_none]
      intro r hr
      simp only [decide_eq_true_eq, not_le]
      exact hlt r hr
    have hlast : nw.getLast? = some (nw.getLast hne) :=
      List.getLast?_eq_getLast nw hne
    constructor
    · unfold milestoneRow
      rw [hfind, hlast]
      rfl
    · have hmem := List.getLast_mem hne
      have := hlt _ hmem
      linarith
  · intro hex
    have hsome : (nw.find? (fun r => decide (m ≤ r.2))).isSome := by
      rw [List.find?_isSome]
      rcases hex with ⟨r, hr, hmr⟩
      exact ⟨r, hr, by simpa using hmr⟩
    obtain ⟨r0, hfind⟩ := Option.isSome_iff_exists.mp hsome
    have hr0mem : r0 ∈ nw := List.mem_of_find?_eq_some hfind
    have hr0p : m ≤ r0.2 := by simpa using List.find?_some hfind
    have hnd : (nw.map (fun r => r.1)).Nodup := hsort.imp ne_of_lt
    have hactual : nw.find? (fun r => r.1 == r0.1) = some r0 :=
      find?_date_unique nw r0 hr0mem hnd
    refine ⟨r0.1, ?_, ?_, ?_, ?_, ?_⟩
    · unfold milestoneRow
      rw [hfind]
    · unfold milestoneRow
      rw [hfind]
      simpa [hactual] using hr0p
    · intro r hr hmr
      exact find?_first_date _ nw r0 hfind hsort r hr (by simpa using hmr)
    · unfold milestoneRow
      rw [hfind]
      simp
    · unfold milestoneRow
      rw [hfind]
      simp

/-- C9, witness: the statement applied to a two-day series with one reached
and one unreached threshold among the queried milestones. -/
theorem c9_milestones_witness :
    (([((0 : Int), (5 : ℚ)), (1, 12)] : List (Int × ℚ)) ≠ [])
    ∧ (([((0 : Int), (5 : ℚ)), (1, 12)] : List (Int × ℚ)).map
        (fun r => r.1)).Pairwise (· < ·)
    ∧ (getMilestones (fun _ => 0) 0 [(0, 5), (1, 12)] [10, 20]
        = ([10, 20] : List ℚ).map (milestoneRow (fun _ => 0) 0 [(0, 5), (1, 12)])
      ∧ ∀ m ∈ ([10, 20] : List ℚ),
        ((∀ r ∈ ([((0 : Int), (5 : ℚ)), (1, 12)] : List (Int × ℚ)), r.2 < m) →
          milestoneRow (fun _ => 0) 0 [(0, 5), (1, 12)] m =
            { date := none, milestone := m,
              actual := -(m - (([((0 : Int), (5 : ℚ)), (1, 12)] :
                List (Int × ℚ)).getLast (by decide)).2),
              age := none, years := none }
          ∧ -(m - (([((0 : Int), (5 : ℚ)), (1, 12)] :
              List (Int × ℚ)).getLast (by decide)).2) < 0)
        ∧ ((∃ r ∈ ([((0 : Int), (5 : ℚ)), (1, 12)] : List (Int × ℚ)), m ≤ r.2) →
          ∃ d : Int,
            (milestoneRow (fun _ => 0) 0 [(0, 5), (1, 12)] m).date = some d
            ∧ m ≤ (milestoneRow (fun _ => 0) 0 [(0, 5), (1, 12)] m).actual
            ∧ (∀ r ∈ ([((0 : Int), (5 : ℚ)), (1, 12)] : List (Int × ℚ)),
                m ≤ r.2 → d ≤ r.1)
            ∧ (milestoneRow (fun _ => 0) 0 [(0, 5), (1, 12)] m).age ≠ none
            ∧ (milestoneRow (fun _ => 0) 0 [(0, 5), (1, 12)] m).years ≠ none)) :=
  ⟨by decide, by decide,
    c9_milestones (fun _ => 0) 0 [(0, 5), (1, 12)] [10, 20] (by decide) (by decide)⟩

theorem exceptMap_all_nil {α : Type} (f : α → Except PyError (List GrowthRow))
    (l : List α) (h : ∀ x ∈ l, f x = .ok []) :
    ∃ parts, exceptMap f l = .ok parts ∧ parts.flatten = ([] : List GrowthRow) := by
  induction l with
  | nil => exact ⟨[], rfl, rfl⟩
  | cons a l ih =>
    obtain ⟨parts, hp, hf⟩ := ih (fun x hx => h x (List.mem_cons_of_mem a hx))
    refine ⟨[] :: parts, ?_, by simp [hf]⟩
    unfold exceptMap
    rw [h a (List.mem_cons_self a l), hp]
    rfl

/-- C7, counterexample: the endpoint rows are exact label lookups, not
nearest-row lookups.  On a series holding only dates 0 and 2, an offset
whose computed initial date is 1 (which does not precede the first data
point, so the interval is not skipped) makes `calculate_growth` raise
`KeyError` instead of producing rows from the nearest dates. -/
theorem c7_counterexample :
    calculateGrowth (fun a _ => a) (fun q => q)
        [⟨0, 1, 0, 1⟩, ⟨2, 2, 0, 2⟩]
        [("T", [fun d => d - 1])]
      = .error (PyError.keyError "1") := rfl

/-- C7, amended: an interval whose computed initial date precedes the first
index entry is skipped (contributes no rows, and an offset list consisting
only of such intervals produces an empty growth table); an interval whose
computed initial date does not precede it emits six rows whose first two are
the final-value and initial-value rows read by exact label lookup at the
final and initial dates (the table rows at exactly those dates, rounded by
the column rounding) — when either date is absent from the index the lookup
raises `KeyError` rather than taking a nearest row. -/
theorem c7_growth (pow2 : ℚ → ℚ → ℚ) (round2 : ℚ → ℚ) (nw : List NWRow)
    (hne : nw ≠ []) :
    (∀ off : String × List (Int → Int),
      off.2.foldl (fun d f => f d) (nw.getLast hne).date < (nw.head hne).date →
      growthEntry pow2 round2 nw (nw.head hne).date (nw.getLast hne).date off
        = .ok [])
    ∧ (∀ off : String × List (Int → Int), ∀ fr ir : NWRow,
      (nw.head hne).date ≤ off.2.foldl (fun d f => f d) (nw.getLast hne).date →
      nw.find? (fun r => r.date == (nw.getLast hne).date) = some fr →
      nw.find? (fun r =>
        r.date == off.2.foldl (fun d f => f d) (nw.getLast hne).date) = some ir →
      ∃ rows, growthEntry pow2 round2 nw (nw.head hne).date
          (nw.getLast hne).date off = .ok rows
        ∧ rows.length = 6
        ∧ rows[0]? = some ⟨off.1, fmtDate (nw.getLast hne).date,
            round2 fr.assets, round2 fr.debts, round2 fr.net⟩
        ∧ rows[1]? = some ⟨off.1,
            fmtDate (off.2.foldl (fun d f => f d) (nw.getLast hne).date),
            round2 ir.assets, round2 ir.debts, round2 ir.net⟩)
    ∧ (∀ offs : List (String × List (Int → Int)),
      (∀ o ∈ offs,
        o.2.foldl (fun d f => f d) (nw.getLast hne).date < (nw.head hne).date) →
      calculateGrowth pow2 round2 nw offs = .ok []) := by
  have hhead : nw.head? = some (nw.head hne) := List.head?_eq_head hne
  have hlast : nw.getLast? = some (nw.getLast hne) :=
    List.getLast?_eq_getLast nw hne
  refine ⟨?_, ?_, ?_⟩
  · intro off hlt
    unfold growthEntry
    rw [if_neg (not_le.mpr hlt)]
    rfl
  · intro off fr ir hge hfr hir
    have h1 : nwFind nw (nw.getLast hne).date = .ok fr := by
      unfold nwFind
      rw [hfr]
    have h2 : nwFind nw (off.2.foldl (fun d f => f d) (nw.getLast hne).date)
        = .ok ir := by
      unfold nwFind
      rw [hir]
    unfold growthEntry
    rw [if_pos hge]
    simp only [h1, h2, okBind]
    exact ⟨_, rfl, rfl, rfl, rfl⟩
  · intro offs hall
    obtain ⟨parts, hp, hflat⟩ := exceptMap_all_nil
      (growthEntry pow2 round2 nw (nw.head hne).date (nw.getLast hne).date) offs
      (fun o ho => by
        unfold growthEntry
        rw [if_neg (not_le.mpr (hall o ho))]
        rfl)
    unfold calculateGrowth
    simp only [hhead, hlast, Option.map_some', Option.getD_some, hp, okBind, hflat]
    rfl

/-- C7, witness: the amended statement applied to a one-row series. -/
theorem c7_growth_witness :
    (([⟨0, 1, 0, 1⟩] : List NWRow) ≠ [])
    ∧ ((∀ off : String × List (Int → Int),
        off.2.foldl (fun d f => f d)
            (([⟨0, 1, 0, 1⟩] : List NWRow).getLast (by decide)).date
          < (([⟨0, 1, 0, 1⟩] : List NWRow).head (by decide)).date →
        growthEntry (fun a _ => a) (fun q => q) [⟨0, 1, 0, 1⟩]
            (([⟨0, 1, 0, 1⟩] : List NWRow).head (by decide)).date
            (([⟨0, 1, 0, 1⟩] : List NWRow).getLast (by decide)).date off
          = .ok [])
      ∧ (∀ off : String × List (Int → Int), ∀ fr ir : NWRow,
        (([⟨0, 1, 0, 1⟩] : List NWRow).head (by decide)).date
          ≤ off.2.foldl (fun d f => f d)
              (([⟨0, 1, 0, 1⟩] : List NWRow).getLast (by decide)).date →
        ([⟨0, 1, 0, 1⟩] : List NWRow).find? (fun r =>
          r.date == (([⟨0, 1, 0, 1⟩] : List NWRow).getLast (by decide)).date)
          = some fr →
        ([⟨0, 1, 0, 1⟩] : List NWRow).find? (fun r =>
          r.date == off.2.foldl (fun d f => f d)
            (([⟨0, 1, 0, 1⟩] : List NWRow).getLast (by decide)).date) = some ir →
        ∃ rows, growthEntry (fun a _ => a) (fun q => q) [⟨0, 1, 0, 1⟩]
            (([⟨0, 1, 0, 1⟩] : List NWRow).head (by decide)).date
            (([⟨0, 1, 0, 1⟩] : List NWRow).getLast (by decide)).date off
            = .ok rows
          ∧ rows.length = 6
          ∧ rows[0]? = some ⟨off.1,
              fmtDate (([⟨0, 1, 0, 1⟩] : List NWRow).getLast (by decide)).date,
              fr.assets, fr.debts, fr.net⟩
          ∧ rows[1]? = some ⟨off.1,
              fmtDate (off.2.foldl (fun d f => f d)
                (([⟨0, 1, 0, 1⟩] : List NWRow).getLast (by decide)).date),
              ir.assets, ir.debts, ir.net⟩)
      ∧ (∀ offs : List (String × List (Int → Int)),
        (∀ o ∈ offs,
          o.2.foldl (fun d f => f d)
              (([⟨0, 1, 0, 1⟩] : List NWRow).getLast (by decide)).date
            < (([⟨0, 1, 0, 1⟩] : List NWRow).head (by decide)).date) →
        calculateGrowth (fun a _ => a) (fun q => q) [⟨0, 1, 0, 1⟩] offs
          = .ok [])) :=
  ⟨by decide, c7_growth (fun a _ => a) (fun q => q) [⟨0, 1, 0, 1⟩] (by decide)⟩

/-- C8: the guarded CAGR row.  For an emitted interval, when the elapsed
years are 0 the CAGR row is the zero vector (the scalar division
1.0/years raises the caught ZeroDivisionError) rather than an error or an
undefined value; when the elapsed years are non-zero the CAGR row holds
100 * ((final/initial) ^ (1/years) - 1) per column, under the column
rounding. -/
theorem c8_cagr (pow2 : ℚ → ℚ → ℚ) (round2 : ℚ → ℚ) (nw : List NWRow)
    (off : String × List (Int → Int)) (firstDate lastDate : Int)
    (fr ir : NWRow) (years : ℚ)
    (hge : firstDate ≤ off.2.foldl (fun d f => f d) lastDate)
    (hfr : nw.find? (fun r => r.date == lastDate) = some fr)
    (hir : nw.find? (fun r =>
      r.date == off.2.foldl (fun d f => f d) lastDate) = some ir)
    (hyears : years = ((lastDate - off.2.foldl (fun d f => f d) lastDate : Int) : ℚ)
      / DAYS_IN_YEAR)
    (hr0 : round2 0 = 0) :
    ∃ rows, growthEntry pow2 round2 nw firstDate lastDate off = .ok rows
      ∧ (years = 0 → rows[5]? = some ⟨off.1, "CAGR", 0, 0, 0⟩)
      ∧ (years ≠ 0 → rows[5]? = some ⟨off.1, "CAGR",
          round2 (100 * (pow2 (fr.assets / ir.assets) (1 / years) - 1)),
          round2 (100 * (pow2 (fr.debts / ir.debts) (1 / years) - 1)),
          round2 (100 * (pow2 (fr.net / ir.net) (1 / years) - 1))⟩) := by
  have h1 : nwFind nw lastDate = .ok fr := by
    unfold nwFind
    rw [hfr]
  have h2 : nwFind nw (off.2.foldl (fun d f => f d) lastDate) = .ok ir := by
    unfold nwFind
    rw [hir]
  unfold growthEntry
  rw [if_pos hge]
  simp only [h1, h2, okBind, ← hyears]
  refine ⟨_, rfl, ?_, ?_⟩
  · intro hy
    simp [hy, hr0]
  · intro hy
    simp [hy]

/-- C8, witness: the statement applied to a one-row series, where the offset
brings the initial date onto the final date and the elapsed years are 0. -/
theorem c8_cagr_witness :
    ((0 : Int) ≤ ([] : List (Int → Int)).foldl (fun d f => f d) 0)
    ∧ ([⟨0, 1, 0, 1⟩] : List NWRow).find? (fun r => r.date == 0) = some ⟨0, 1, 0, 1⟩
    ∧ ([⟨0, 1, 0, 1⟩] : List NWRow).find? (fun r =>
        r.date == ([] : List (Int → Int)).foldl (fun d f => f d) 0)
        = some ⟨0, 1, 0, 1⟩
    ∧ (0 : ℚ) = ((0 - ([] : List (Int → Int)).foldl (fun d f => f d) 0 : Int) : ℚ)
        / DAYS_IN_YEAR
    ∧ (fun (q : ℚ) => q) 0 = 0
    ∧ (∃ rows, growthEntry (fun a _ => a) (fun q => q) [⟨0, 1, 0, 1⟩] 0 0
          ("T", []) = .ok rows
        ∧ ((0 : ℚ) = 0 → rows[5]? = some ⟨"T", "CAGR", 0, 0, 0⟩)
        ∧ ((0 : ℚ) ≠ 0 → rows[5]? = some ⟨"T", "CAGR",
            (fun (q : ℚ) => q) (100 * ((fun (a : ℚ) (_ : ℚ) => a)
              ((1 : ℚ) / 1) (1 / (0 : ℚ)) - 1)),
            (fun (q : ℚ) => q) (100 * ((fun (a : ℚ) (_ : ℚ) => a)
              ((0 : ℚ) / 0) (1 / (0 : ℚ)) - 1)),
            (fun (q : ℚ) => q) (100 * ((fun (a : ℚ) (_ : ℚ) => a)
              ((1 : ℚ) / 1) (1 / (0 : ℚ)) - 1))⟩)) :=
  ⟨by decide, rfl, rfl, by simp, rfl,
    c8_cagr (fun a _ => a) (fun q => q) [⟨0, 1, 0, 1⟩] ("T", []) 0 0
      ⟨0, 1, 0, 1⟩ ⟨0, 1, 0, 1⟩ 0 (by decide) rfl rfl (by simp) rfl⟩

/-! Lemmas about keyed-table lookup, filtering and the rollup layers. -/

theorem getRow_eq_none {α : Type} (t : List (Key × α)) (k : Key)
    (h : ∀ r ∈ t, r.1 ≠ k) : getRow t k = none := by
  unfold getRow
  have : t.find? (fun r => r.1 == k) = none :=
    List.find?_eq_none.mpr (fun x hx => by simpa using h x hx)
  rw [this]
  rfl

theorem find?_key_cons {α : Type} (x : Key × α) (l : List (Key × α)) (k : Key) :
    (x :: l).find? (fun r => r.1 == k)
      = if (x.1 == k) = true then some x else l.find? (fun r => r.1 == k) := by
  rw [List.find?_cons]
  cases h : (x.1 == k) <;> simp [h]

theorem getRow_append_left {α : Type} (a b : List (Key × α)) (k : Key) (v : α)
    (h : getRow a k = some v) : getRow (a ++ b) k = some v := by
  unfold getRow at h ⊢
  induction a with
  | nil => simp at h
  | cons x a ih =>
    by_cases hx : (x.1 == k) = true
    · rw [find?_key_cons, if_pos hx] at h
      rw [List.cons_append, find?_key_cons, if_pos hx]
      exact h
    · rw [find?_key_cons, if_neg hx] at h
      rw [List.cons_append, find?_key_cons, if_neg hx]
      exact ih h

theorem getRow_append_right {α : Type} (a b : List (Key × α)) (k : Key)
    (h : ∀ r ∈ a, r.1 ≠ k) : getRow (a ++ b) k = getRow b k := by
  unfold getRow
  induction a with
  | nil => rfl
  | cons x a ih =>
    have hx : ¬(x.1 == k) = true := by
      simpa using h x (List.mem_cons_self x a)
    rw [List.cons_append, find?_key_cons, if_neg hx]
    exact ih (fun r hr => h r (List.mem_cons_of_mem x hr))

theorem getRow_filter {α : Type} (b : List (Key × α)) (q : Key × α → Bool)
    (k : Key) (hq : ∀ r ∈ b, r.1 = k → q r = true) :
    getRow (b.filter q) k = getRow b k := by
  unfold getRow
  induction b with
  | nil => rfl
  | cons x b ih =>
    have htail := ih (fun r hr => hq r (List.mem_cons_of_mem x hr))
    by_cases hx : (x.1 == k) = true
    · have hqx : q x = true := hq x (List.mem_cons_self x b) (by simpa using hx)
      rw [List.filter_cons_of_pos hqx, find?_key_cons, if_pos hx,
        find?_key_cons, if_pos hx]
    · cases hqx : q x with
      | true =>
        rw [List.filter_cons_of_pos hqx, find?_key_cons, if_neg hx,
          find?_key_cons, if_neg hx]
        exact htail
      | false =>
        rw [List.filter_cons_of_neg (by simp [hqx]), find?_key_cons, if_neg hx]
        exact htail

theorem getRow_combineFirst_left {α : Type} (a b : List (Key × α)) (k : Key)
    (v : α) (h : getRow a k = some v) :
    getRow (combineFirst a b) k = some v :=
  getRow_append_left a _ k v h

theorem getRow_combineFirst_right {α : Type} (a b : List (Key × α)) (k : Key)
    (h : ∀ r ∈ a, r.1 ≠ k) : getRow (combineFirst a b) k = getRow b k := by
  unfold combineFirst
  rw [getRow_append_right _ _ _ h]
  apply getRow_filter
  intro r hr hk
  have : a.any (fun s => s.1 == r.1) = false := by
    rw [List.any_eq_false]
    intro s hs
    simp only [beq_iff_eq]
    rw [hk]
    exact h s hs
  rw [this]
  rfl

theorem getRow_map_key {α β : Type} (l : List α) (key : α → Key) (f : α → β)
    (c : α) (hc : c ∈ l) (hinj : ∀ a ∈ l, key a = key c → a = c) :
    getRow (l.map (fun a => (key a, f a))) (key c) = some (f c) := by
  induction l with
  | nil => cases hc
  | cons a l ih =>
    by_cases hk : key a = key c
    · have ha : a = c := hinj a (List.mem_cons_self a l) hk
      subst ha
      unfold getRow
      rw [List.map_cons, find?_key_cons, if_pos (by simp)]
      rfl
    · have hc2 : c ∈ l := by
        rcases List.mem_cons.mp hc with rfl | h1
        · exact absurd rfl hk
        · exact h1
      unfold getRow
      rw [List.map_cons, find?_key_cons, if_neg (by simpa using hk)]
      exact ih hc2 (fun x hx => hinj x (List.mem_cons_of_mem a hx))

theorem filter_map_comm {α β : Type} (l : List α) (G : α → β)
    (q : β → Bool) (q0 : α → Bool) (hq : ∀ a, q (G a) = q0 a) :
    (l.map G).filter q = (l.filter q0).map G := by
  induction l with
  | nil => rfl
  | cons a l ih =>
    rw [List.map_cons, List.filter_cons, List.filter_cons, hq]
    cases h : q0 a with
    | true => simp [ih]
    | false => simp [ih]

theorem filter_eq_nil_of_keys {α : Type} (t : List (Key × α))
    (q : Key × α → Bool) (h : ∀ r ∈ t, q r = false) : t.filter q = [] :=
  List.filter_eq_nil_iff.mpr (fun r hr => by simp [h r hr])

theorem mem_catsOf {α : Type} (t : List (Key × α)) (c : String) :
    c ∈ catsOf t ↔ ∃ r ∈ t, r.1.1 = c := by
  unfold catsOf
  rw [List.mem_dedup, List.mem_map]

theorem catSum_append (b c : List (Key × ℚ)) (s : String) :
    catSum (b ++ c) s = catSum b s + catSum c s := by
  unfold catSum
  rw [List.filter_append, List.map_append, List.sum_append]

theorem catSum_eq_zero (b : List (Key × ℚ)) (s : String)
    (h : ∀ r ∈ b, r.1.1 ≠ s) : catSum b s = 0 := by
  unfold catSum
  rw [filter_eq_nil_of_keys b _ (fun r hr => by simpa using h r hr)]
  rfl

theorem typeCatSum_append (b c : List (Key × ℚ)) (s ty : String) :
    typeCatSum (b ++ c) s ty = typeCatSum b s ty + typeCatSum c s ty := by
  unfold typeCatSum
  rw [List.filter_append, List.map_append, List.sum_append]

theorem typeCatSum_eq_zero (b : List (Key × ℚ)) (s ty : String)
    (h : ∀ r ∈ b, r.1.1 ≠ s) : typeCatSum b s ty = 0 := by
  unfold typeCatSum
  rw [filter_eq_nil_of_keys b _ (fun r hr => by
    have := h r hr
    simp [this])]
  rfl

theorem netRows_key (b : List (Key × ℚ)) :
    ∀ r ∈ netRows b, r.1.1 = "Net" ∧ r.1.2.2 = "Total" := by
  intro r hr
  unfold netRows at hr
  obtain ⟨ty, _, rfl⟩ := List.mem_map.mp hr
  exact ⟨rfl, rfl⟩

theorem pctRows_key (b : List (Key × ℚ)) :
    ∀ r ∈ pctRows b, ∃ s ∈ b, r.1 = s.1 := by
  intro r hr
  unfold pctRows at hr
  obtain ⟨s, hs, rfl⟩ := List.mem_map.mp hr
  exact ⟨s, hs, rfl⟩

theorem l1Totals_key (t : List (Key × (ℚ × ℚ))) :
    ∀ r ∈ l1Totals t, r.1.2.2 = "Total" ∧ ∃ s ∈ t, s.1.1 = r.1.1 := by
  intro r hr
  unfold l1Totals at hr
  obtain ⟨ct, hct, rfl⟩ := List.mem_map.mp hr
  refine ⟨rfl, ?_⟩
  unfold ctPairsOf at hct
  obtain ⟨s, hs, he⟩ := List.mem_map.mp (List.mem_dedup.mp hct)
  exact ⟨s, hs, by rw [← he]⟩

theorem l0Totals_key (t : List (Key × (ℚ × ℚ))) :
    ∀ r ∈ l0Totals t, r.1.2.1 = "Total" ∧ r.1.2.2 = " "
      ∧ ∃ s ∈ t, s.1.1 = r.1.1 := by
  intro r hr
  unfold l0Totals at hr
  obtain ⟨c, hc, rfl⟩ := List.mem_map.mp hr
  exact ⟨rfl, rfl, (mem_catsOf t c).mp hc⟩

theorem sum_pct_filter (l : List (Key × ℚ)) (g : String → ℚ) (c : String)
    (hall : ∀ r ∈ l, r.1.1 = c) :
    (l.map (fun r => 100 * r.2 / g r.1.1)).sum
      = 100 * (l.map (fun r => r.2)).sum / g c := by
  induction l with
  | nil => simp
  | cons a l ih =>
    rw [List.map_cons, List.sum_cons, List.map_cons, List.sum_cons,
      ih (fun r hr => hall r (List.mem_cons_of_mem a hr)),
      hall a (List.mem_cons_self a l)]
    ring

theorem withTotals_type_total (b2 : List (Key × ℚ)) (c ty : String)
    (hfresh : ∀ r ∈ b2, r.1 ≠ (c, ty, "Total"))
    (hex : ∃ r ∈ b2, r.1.1 = c ∧ r.1.2.1 = ty) :
    ∃ p, getRow (withTotals (pctRows b2)) (c, ty, "Total") = some p
      ∧ p.1 = typeCatSum b2 c ty := by
  have hfreshP : ∀ r ∈ pctRows b2, r.1 ≠ (c, ty, "Total") := by
    intro r hr
    obtain ⟨s, hs, he⟩ := pctRows_key b2 r hr
    rw [he]
    exact hfresh s hs
  obtain ⟨r0, hr0, hc0, ht0⟩ := hex
  have hmemP : (r0.1, (r0.2, 100 * r0.2 / catSum b2 r0.1.1)) ∈ pctRows b2 := by
    unfold pctRows
    exact List.mem_map.mpr ⟨r0, hr0, rfl⟩
  have hctmem : (c, ty) ∈ ctPairsOf (pctRows b2) := by
    unfold ctPairsOf
    rw [List.mem_dedup, List.mem_map]
    exact ⟨_, hmemP, by simp [hc0, ht0]⟩
  have hL1 := getRow_map_key (ctPairsOf (pctRows b2))
      (fun ct => (ct.1, ct.2, "Total"))
      (fun ct => pairSum (((pctRows b2).filter
        (fun r => r.1.1 == ct.1 && r.1.2.1 == ct.2)).map (fun r => r.2)))
      (c, ty) hctmem
      (by
        rintro ⟨x, y⟩ _ ha
        simp only [Prod.mk.injEq] at ha
        simp [ha.1, ha.2.1])
  have h2 : getRow (combineFirst (pctRows b2) (l1Totals (pctRows b2)))
      (c, ty, "Total")
      = some (pairSum (((pctRows b2).filter
          (fun r => r.1.1 == c && r.1.2.1 == ty)).map (fun r => r.2))) := by
    rw [getRow_combineFirst_right _ _ _ hfreshP]
    unfold l1Totals
    exact hL1
  refine ⟨pairSum (((pctRows b2).filter
      (fun r => r.1.1 == c && r.1.2.1 == ty)).map (fun r => r.2)), ?_, ?_⟩
  · unfold withTotals
    exact getRow_combineFirst_left _ _ _ _ h2
  · show (pairSum (((pctRows b2).filter
      (fun r => r.1.1 == c && r.1.2.1 == ty)).map (fun r => r.2))).1
      = typeCatSum b2 c ty
    unfold pctRows
    rw [filter_map_comm b2
      (fun r => (r.1, (r.2, 100 * r.2 / catSum b2 r.1.1)))
      (fun r => r.1.1 == c && r.1.2.1 == ty)
      (fun r => r.1.1 == c && r.1.2.1 == ty)
      (fun a => rfl)]
    unfold pairSum typeCatSum
    rw [List.map_map, List.map_map]
    rfl

theorem withTotals_cat_total (b2 : List (Key × ℚ)) (c : String)
    (hfresh : ∀ r ∈ b2, r.1 ≠ (c, "Total", " "))
    (hex : ∃ r ∈ b2, r.1.1 = c) :
    ∃ p, getRow (withTotals (pctRows b2)) (c, "Total", " ") = some p
      ∧ p.1 = catSum b2 c := by
  have hfreshP : ∀ r ∈ pctRows b2, r.1 ≠ (c, "Total", " ") := by
    intro r hr
    obtain ⟨s, hs, he⟩ := pctRows_key b2 r hr
    rw [he]
    exact hfresh s hs
  have hfreshL1 : ∀ r ∈ l1Totals (pctRows b2), r.1 ≠ (c, "Total", " ") := by
    intro r hr he
    have h := (l1Totals_key _ r hr).1
    rw [he] at h
    exact absurd (show (" " : String) = "Total" from h) (by decide)
  have hfreshC : ∀ r ∈ combineFirst (pctRows b2) (l1Totals (pctRows b2)),
      r.1 ≠ (c, "Total", " ") := by
    intro r hr
    unfold combineFirst at hr
    rcases List.mem_append.mp hr with h | h
    · exact hfreshP r h
    · exact hfreshL1 r (List.mem_of_mem_filter h)
  obtain ⟨r0, hr0, hc0⟩ := hex
  have hmemP : (r0.1, (r0.2, 100 * r0.2 / catSum b2 r0.1.1)) ∈ pctRows b2 := by
    unfold pctRows
    exact List.mem_map.mpr ⟨r0, hr0, rfl⟩
  have hcmem : c ∈ catsOf (pctRows b2) :=
    (mem_catsOf _ c).mpr ⟨_, hmemP, by simpa using hc0⟩
  have hL0 := getRow_map_key (catsOf (pctRows b2))
      (fun c0 => (c0, "Total", " "))
      (fun c0 => pairSum (((pctRows b2).filter
        (fun r => r.1.1 == c0)).map (fun r => r.2)))
      c hcmem
      (by
        intro a _ ha
        simpa using congrArg (fun k : Key => k.1) ha)
  refine ⟨pairSum (((pctRows b2).filter
      (fun r => r.1.1 == c)).map (fun r => r.2)), ?_, ?_⟩
  · unfold withTotals
    rw [getRow_combineFirst_right _ _ _ hfreshC]
    unfold l0Totals
    exact hL0
  · show (pairSum (((pctRows b2).filter
      (fun r => r.1.1 == c)).map (fun r => r.2))).1 = catSum b2 c
    unfold pctRows
    rw [filter_map_comm b2
      (fun r => (r.1, (r.2, 100 * r.2 / catSum b2 r.1.1)))
      (fun r => r.1.1 == c)
      (fun r => r.1.1 == c)
      (fun a => rfl)]
    unfold pairSum catSum
    rw [List.map_map, List.map_map]
    rfl

theorem withTotals_pct_sum (b2 : List (Key × ℚ)) (c : String)
    (hitems : ∀ r ∈ b2, r.1.1 = c → (r.1.2.2 ≠ "Total" ∧ r.1.2.2 ≠ " "))
    (hsum : catSum b2 c ≠ 0) :
    (((withTotals (pctRows b2)).filter (fun r =>
        r.1.1 == c && !(r.1.2.2 == "Total") && !(r.1.2.2 == " "))).map
      (fun r => r.2.2)).sum = 100 := by
  unfold withTotals combineFirst
  rw [List.filter_append, List.filter_append]
  have hnil1 : (((l1Totals (pctRows b2)).filter (fun r =>
      !((pctRows b2).any (fun s => s.1 == r.1)))).filter (fun r =>
        r.1.1 == c && !(r.1.2.2 == "Total") && !(r.1.2.2 == " "))) = [] := by
    apply filter_eq_nil_of_keys
    intro r hr
    have h := (l1Totals_key _ r (List.mem_of_mem_filter hr)).1
    simp [h]
  have hnil0 : (((l0Totals (pctRows b2)).filter (fun r =>
      !((pctRows b2 ++ (l1Totals (pctRows b2)).filter (fun r =>
        !((pctRows b2).any (fun s => s.1 == r.1)))).any
          (fun s => s.1 == r.1)))).filter (fun r =>
        r.1.1 == c && !(r.1.2.2 == "Total") && !(r.1.2.2 == " "))) = [] := by
    apply filter_eq_nil_of_keys
    intro r hr
    have h := (l0Totals_key _ r (List.mem_of_mem_filter hr)).2.1
    simp only [h]
    simp
  rw [hnil1, hnil0, List.append_nil, List.append_nil]
  unfold pctRows
  rw [filter_map_comm b2
    (fun r => (r.1, (r.2, 100 * r.2 / catSum b2 r.1.1)))
    (fun r => r.1.1 == c && !(r.1.2.2 == "Total") && !(r.1.2.2 == " "))
    (fun r => r.1.1 == c && !(r.1.2.2 == "Total") && !(r.1.2.2 == " "))
    (fun a => rfl)]
  have hcongr : b2.filter (fun r =>
      r.1.1 == c && !(r.1.2.2 == "Total") && !(r.1.2.2 == " "))
      = b2.filter (fun r => r.1.1 == c) := by
    apply List.filter_congr
    intro r hr
    by_cases h : r.1.1 = c
    · have hit := hitems r hr h
      simp [h, hit.1, hit.2]
    · simp [beq_eq_false_iff_ne.mpr h]
  rw [hcongr, List.map_map]
  have hs := sum_pct_filter (b2.filter (fun r => r.1.1 == c)) (catSum b2) c
    (fun r hr => by simpa using (List.mem_filter.mp hr).2)
  rw [show ((b2.filter (fun r => r.1.1 == c)).map
      ((fun (r : Key × (ℚ × ℚ)) => r.2.2) ∘
        (fun r => (r.1, (r.2, 100 * r.2 / catSum b2 r.1.1))))).sum
    = ((b2.filter (fun r => r.1.1 == c)).map
        (fun r => 100 * r.2 / catSum b2 r.1.1)).sum from rfl, hs]
  show 100 * catSum b2 c / catSum b2 c = 100
  rw [mul_div_assoc, div_self hsum, mul_one]

theorem netTriple_key (t : List (Key × (ℚ × ℚ))) (nt : List String) :
    ∀ r ∈ netTriple t nt, r.1.1 = "Net" := by
  intro r hr
  unfold netTriple at hr
  simp only [List.mem_cons, List.not_mem_nil, or_false] at hr
  rcases hr with rfl | rfl | rfl <;> rfl

theorem flowStatement_props (base : List (Key × ℚ))
    (hnet : ∀ r ∈ base, r.1.1 ≠ "Net")
    (hi1 : ∀ r ∈ base, r.1.2.2 ≠ "Total")
    (hi2 : ∀ r ∈ base, r.1.2.2 ≠ " ") :
    (∀ c ty, (∃ r ∈ base, r.1.1 = c ∧ r.1.2.1 = ty) →
      ∃ p, getRow (flowStatement base) (c, ty, "Total") = some p
        ∧ p.1 = typeCatSum base c ty)
    ∧ (∀ c, (∃ r ∈ base, r.1.1 = c) →
      ∃ p, getRow (flowStatement base) (c, "Total", " ") = some p
        ∧ p.1 = catSum base c)
    ∧ (∀ c, (∃ r ∈ base, r.1.1 = c) → catSum base c ≠ 0 →
      (((flowStatement base).filter (fun r =>
          r.1.1 == c && !(r.1.2.2 == "Total") && !(r.1.2.2 == " "))).map
        (fun r => r.2.2)).sum = 100) := by
  refine ⟨?_, ?_, ?_⟩
  · intro c ty hex
    obtain ⟨r0, hr0, hc0, ht0⟩ := hex
    have hcne : c ≠ "Net" := hc0 ▸ hnet r0 hr0
    have hfresh : ∀ r ∈ base ++ netRows base, r.1 ≠ (c, ty, "Total") := by
      intro r hr he
      rcases List.mem_append.mp hr with h | h
      · exact hi1 r h (by rw [he])
      · have h1 : r.1.1 = "Net" := (netRows_key base r h).1
        have h2 : r.1.1 = c := by rw [he]
        exact hcne (h2.symm.trans h1)
    obtain ⟨p, hp, hv⟩ := withTotals_type_total (base ++ netRows base) c ty
      hfresh ⟨r0, List.mem_append_left _ hr0, hc0, ht0⟩
    refine ⟨p, hp, ?_⟩
    rw [hv, typeCatSum_append, typeCatSum_eq_zero (netRows base) c ty
      (fun r hr heq => hcne (heq.symm.trans (netRows_key base r hr).1)), add_zero]
  · intro c hex
    obtain ⟨r0, hr0, hc0⟩ := hex
    have hcne : c ≠ "Net" := hc0 ▸ hnet r0 hr0
    have hfresh : ∀ r ∈ base ++ netRows base, r.1 ≠ (c, "Total", " ") := by
      intro r hr he
      rcases List.mem_append.mp hr with h | h
      · exact hi2 r h (by rw [he])
      · have h1 : r.1.2.2 = "Total" := (netRows_key base r h).2
        rw [he] at h1
        exact absurd (show (" " : String) = "Total" from h1) (by decide)
    obtain ⟨p, hp, hv⟩ := withTotals_cat_total (base ++ netRows base) c
      hfresh ⟨r0, List.mem_append_left _ hr0, hc0⟩
    refine ⟨p, hp, ?_⟩
    rw [hv, catSum_append, catSum_eq_zero (netRows base) c
      (fun r hr heq => hcne (heq.symm.trans (netRows_key base r hr).1)), add_zero]
  · intro c hex hsum
    obtain ⟨r0, hr0, hc0⟩ := hex
    have hcne : c ≠ "Net" := hc0 ▸ hnet r0 hr0
    have hitems : ∀ r ∈ base ++ netRows base, r.1.1 = c →
        (r.1.2.2 ≠ "Total" ∧ r.1.2.2 ≠ " ") := by
      intro r hr hc
      rcases List.mem_append.mp hr with h | h
      · exact ⟨hi1 r h, hi2 r h⟩
      · exact absurd ((netRows_key base r h).1.symm.trans hc).symm hcne
    have hcs : catSum (base ++ netRows base) c = catSum base c := by
      rw [catSum_append, catSum_eq_zero (netRows base) c
        (fun r hr heq => hcne (heq.symm.trans (netRows_key base r hr).1)),
        add_zero]
    exact withTotals_pct_sum (base ++ netRows base) c hitems
      (by rw [hcs]; exact hsum)

theorem incomeBody_props (base : List (Key × ℚ)) (nettax : List String)
    (hnet : ∀ r ∈ base, r.1.1 ≠ "Net")
    (hi1 : ∀ r ∈ base, r.1.2.2 ≠ "Total")
    (hi2 : ∀ r ∈ base, r.1.2.2 ≠ " ") :
    (∀ c ty, (∃ r ∈ base, r.1.1 = c ∧ r.1.2.1 = ty) →
      ∃ p, getRow (withTotals (pctRows base)
          ++ netTriple (withTotals (pctRows base)) nettax) (c, ty, "Total")
          = some p
        ∧ p.1 = typeCatSum base c ty)
    ∧ (∀ c, (∃ r ∈ base, r.1.1 = c) →
      ∃ p, getRow (withTotals (pctRows base)
          ++ netTriple (withTotals (pctRows base)) nettax) (c, "Total", " ")
          = some p
        ∧ p.1 = catSum base c)
    ∧ (∀ c, (∃ r ∈ base, r.1.1 = c) → catSum base c ≠ 0 →
      (((withTotals (pctRows base)
          ++ netTriple (withTotals (pctRows base)) nettax).filter (fun r =>
          r.1.1 == c && !(r.1.2.2 == "Total") && !(r.1.2.2 == " "))).map
        (fun r => r.2.2)).sum = 100) := by
  refine ⟨?_, ?_, ?_⟩
  · intro c ty hex
    obtain ⟨r0, hr0, hc0, ht0⟩ := hex
    have hfresh : ∀ r ∈ base, r.1 ≠ (c, ty, "Total") :=
      fun r hr he => hi1 r hr (by rw [he])
    obtain ⟨p, hp, hv⟩ := withTotals_type_total base c ty hfresh ⟨r0, hr0, hc0, ht0⟩
    exact ⟨p, getRow_append_left _ _ _ _ hp, hv⟩
  · intro c hex
    obtain ⟨r0, hr0, hc0⟩ := hex
    have hfresh : ∀ r ∈ base, r.1 ≠ (c, "Total", " ") :=
      fun r hr he => hi2 r hr (by rw [he])
    obtain ⟨p, hp, hv⟩ := withTotals_cat_total base c hfresh ⟨r0, hr0, hc0⟩
    exact ⟨p, getRow_append_left _ _ _ _ hp, hv⟩
  · intro c hex hsum
    obtain ⟨r0, hr0, hc0⟩ := hex
    have hcne : c ≠ "Net" := hc0 ▸ hnet r0 hr0
    rw [List.filter_append, filter_eq_nil_of_keys
      (netTriple (withTotals (pctRows base)) nettax) _
      (fun r hr => by
        have h := netTriple_key _ _ r hr
        have hb : (r.1.1 == c) = false :=
          beq_eq_false_iff_ne.mpr (fun he => hcne (he.symm.trans h))
        simp [hb]), List.append_nil]
    exact withTotals_pct_sum base c
      (fun r hr hc => ⟨hi1 r hr, hi2 r hr⟩) hsum

theorem periodRows_key_prop (table : List (Key × List (Int × ℚ)))
    (p : Int → Bool) (Q : Key → Prop) (h : ∀ s ∈ table, Q s.1) :
    ∀ r ∈ periodRows table p, Q r.1 := by
  intro r hr
  unfold periodRows at hr
  obtain ⟨s, hs, rfl⟩ := List.mem_map.mp hr
  exact h s hs

theorem lastRows_key_prop (table : List (Key × List (Int × ℚ)))
    (p : Int → Bool) (Q : Key → Prop) (h : ∀ s ∈ table, Q s.1) :
    ∀ r ∈ lastRows table p, Q r.1 := by
  intro r hr
  unfold lastRows at hr
  obtain ⟨s, hs, rfl⟩ := List.mem_map.mp hr
  exact h s hs

/-- C2: hierarchical rollup invariants of the three statement builders, for
every leaf table and period.  In each produced statement (with user
categories distinct from the synthetic names: no Category `Net`, no Item
`Total` or blank): the dollar value of every Type-level total row equals the
sum of the dollar values of the leaf rows of that (Category, Type); the
dollar value of every Category-level total row equals the sum of the dollar
values of the leaf rows under that Category; and the percent values of the
leaf rows sharing a top-level Category sum to exactly 100 whenever that
Category sums to a non-zero dollar value (the source divides by the group
sum, so a zero group yields undefined float percentages there). -/
theorem c2_statement_totals (table : List (Key × List (Int × ℚ)))
    (inPeriod : Int → Bool) (nettax0 : List String)
    (hnet : ∀ r ∈ table, r.1.1 ≠ "Net")
    (hi1 : ∀ r ∈ table, r.1.2.2 ≠ "Total")
    (hi2 : ∀ r ∈ table, r.1.2.2 ≠ " ") :
    ((∀ c ty, (∃ r ∈ periodRows table inPeriod, r.1.1 = c ∧ r.1.2.1 = ty) →
        ∃ p, getRow (cashflowStatement table inPeriod) (c, ty, "Total") = some p
          ∧ p.1 = typeCatSum (periodRows table inPeriod) c ty)
      ∧ (∀ c, (∃ r ∈ periodRows table inPeriod, r.1.1 = c) →
        ∃ p, getRow (cashflowStatement table inPeriod) (c, "Total", " ") = some p
          ∧ p.1 = catSum (periodRows table inPeriod) c)
      ∧ (∀ c, (∃ r ∈ periodRows table inPeriod, r.1.1 = c) →
        catSum (periodRows table inPeriod) c ≠ 0 →
        (((cashflowStatement table inPeriod).filter (fun r =>
            r.1.1 == c && !(r.1.2.2 == "Total") && !(r.1.2.2 == " "))).map
          (fun r => r.2.2)).sum = 100))
    ∧ ((∀ c ty, (∃ r ∈ lastRows table inPeriod, r.1.1 = c ∧ r.1.2.1 = ty) →
        ∃ p, getRow (balanceSheet table inPeriod) (c, ty, "Total") = some p
          ∧ p.1 = typeCatSum (lastRows table inPeriod) c ty)
      ∧ (∀ c, (∃ r ∈ lastRows table inPeriod, r.1.1 = c) →
        ∃ p, getRow (balanceSheet table inPeriod) (c, "Total", " ") = some p
          ∧ p.1 = catSum (lastRows table inPeriod) c)
      ∧ (∀ c, (∃ r ∈ lastRows table inPeriod, r.1.1 = c) →
        catSum (lastRows table inPeriod) c ≠ 0 →
        (((balanceSheet table inPeriod).filter (fun r =>
            r.1.1 == c && !(r.1.2.2 == "Total") && !(r.1.2.2 == " "))).map
          (fun r => r.2.2)).sum = 100))
    ∧ ((∀ c ty, (∃ r ∈ periodRows table inPeriod, r.1.1 = c ∧ r.1.2.1 = ty) →
        ∃ p, getRow (incomeStatementTable table inPeriod nettax0)
            (c, ty, "Total") = some p
          ∧ p.1 = typeCatSum (periodRows table inPeriod) c ty)
      ∧ (∀ c, (∃ r ∈ periodRows table inPeriod, r.1.1 = c) →
        ∃ p, getRow (incomeStatementTable table inPeriod nettax0)
            (c, "Total", " ") = some p
          ∧ p.1 = catSum (periodRows table inPeriod) c)
      ∧ (∀ c, (∃ r ∈ periodRows table inPeriod, r.1.1 = c) →
        catSum (periodRows table inPeriod) c ≠ 0 →
        (((incomeStatementTable table inPeriod nettax0).filter (fun r =>
            r.1.1 == c && !(r.1.2.2 == "Total") && !(r.1.2.2 == " "))).map
          (fun r => r.2.2)).sum = 100)) := by
  refine ⟨?_, ?_, ?_⟩
  · exact flowStatement_props (periodRows table inPeriod)
      (periodRows_key_prop table inPeriod (fun k => k.1 ≠ "Net") hnet)
      (periodRows_key_prop table inPeriod (fun k => k.2.2 ≠ "Total") hi1)
      (periodRows_key_prop table inPeriod (fun k => k.2.2 ≠ " ") hi2)
  · exact flowStatement_props (lastRows table inPeriod)
      (lastRows_key_prop table inPeriod (fun k => k.1 ≠ "Net") hnet)
      (lastRows_key_prop table inPeriod (fun k => k.2.2 ≠ "Total") hi1)
      (lastRows_key_prop table inPeriod (fun k => k.2.2 ≠ " ") hi2)
  · exact incomeBody_props (periodRows table inPeriod)
      (if nettax0.isEmpty then ["Taxes"] else nettax0)
      (periodRows_key_prop table inPeriod (fun k => k.1 ≠ "Net") hnet)
      (periodRows_key_prop table inPeriod (fun k => k.2.2 ≠ "Total") hi1)
      (periodRows_key_prop table inPeriod (fun k => k.2.2 ≠ " ") hi2)

/-- C2, witness: the statement applied to a one-leaf table. -/
theorem c2_statement_totals_witness :
    (∀ r ∈ ([(("A", "B", "C"), [((0 : Int), (5 : ℚ))])] :
        List (Key × List (Int × ℚ))), r.1.1 ≠ "Net")
    ∧ (∀ r ∈ ([(("A", "B", "C"), [((0 : Int), (5 : ℚ))])] :
        List (Key × List (Int × ℚ))), r.1.2.2 ≠ "Total")
    ∧ (∀ r ∈ ([(("A", "B", "C"), [((0 : Int), (5 : ℚ))])] :
        List (Key × List (Int × ℚ))), r.1.2.2 ≠ " ")
    ∧ (((∀ c ty, (∃ r ∈ periodRows
            [(("A", "B", "C"), [((0 : Int), (5 : ℚ))])] (fun _ => true),
            r.1.1 = c ∧ r.1.2.1 = ty) →
          ∃ p, getRow (cashflowStatement
              [(("A", "B", "C"), [((0 : Int), (5 : ℚ))])] (fun _ => true))
              (c, ty, "Total") = some p
            ∧ p.1 = typeCatSum (periodRows
                [(("A", "B", "C"), [((0 : Int), (5 : ℚ))])] (fun _ => true)) c ty)
        ∧ (∀ c, (∃ r ∈ periodRows
            [(("A", "B", "C"), [((0 : Int), (5 : ℚ))])] (fun _ => true),
            r.1.1 = c) →
          ∃ p, getRow (cashflowStatement
              [(("A", "B", "C"), [((0 : Int), (5 : ℚ))])] (fun _ => true))
              (c, "Total", " ") = some p
            ∧ p.1 = catSum (periodRows
                [(("A", "B", "C"), [((0 : Int), (5 : ℚ))])] (fun _ => true)) c)
        ∧ (∀ c, (∃ r ∈ periodRows
            [(("A", "B", "C"), [((0 : Int), (5 : ℚ))])] (fun _ => true),
            r.1.1 = c) →
          catSum (periodRows
            [(("A", "B", "C"), [((0 : Int), (5 : ℚ))])] (fun _ => true)) c ≠ 0 →
          (((cashflowStatement
              [(("A", "B", "C"), [((0 : Int), (5 : ℚ))])] (fun _ => true)).filter
              (fun r => r.1.1 == c && !(r.1.2.2 == "Total")
                && !(r.1.2.2 == " "))).map (fun r => r.2.2)).sum = 100))
      ∧ ((∀ c ty, (∃ r ∈ lastRows
            [(("A", "B", "C"), [((0 : Int), (5 : ℚ))])] (fun _ => true),
            r.1.1 = c ∧ r.1.2.1 = ty) →
          ∃ p, getRow (balanceSheet
              [(("A", "B", "C"), [((0 : Int), (5 : ℚ))])] (fun _ => true))
              (c, ty, "Total") = some p
            ∧ p.1 = typeCatSum (lastRows
                [(("A", "B", "C"), [((0 : Int), (5 : ℚ))])] (fun _ => true)) c ty)
        ∧ (∀ c, (∃ r ∈ lastRows
            [(("A", "B", "C"), [((0 : Int), (5 : ℚ))])] (fun _ => true),
            r.1.1 = c) →
          ∃ p, getRow (balanceSheet
              [(("A", "B", "C"), [((0 : Int), (5 : ℚ))])] (fun _ => true))
              (c, "Total", " ") = some p
            ∧ p.1 = catSum (lastRows
                [(("A", "B", "C"), [((0 : Int), (5 : ℚ))])] (fun _ => true)) c)
        ∧ (∀ c, (∃ r ∈ lastRows
            [(("A", "B", "C"), [((0 : Int), (5 : ℚ))])] (fun _ => true),
            r.1.1 = c) →
          catSum (lastRows
            [(("A", "B", "C"), [((0 : Int), (5 : ℚ))])] (fun _ => true)) c ≠ 0 →
          (((balanceSheet
              [(("A", "B", "C"), [((0 : Int), (5 : ℚ))])] (fun _ => true)).filter
              (fun r => r.1.1 == c && !(r.1.2.2 == "Total")
                && !(r.1.2.2 == " "))).map (fun r => r.2.2)).sum = 100))
      ∧ ((∀ c ty, (∃ r ∈ periodRows
            [(("A", "B", "C"), [((0 : Int), (5 : ℚ))])] (fun _ => true),
            r.1.1 = c ∧ r.1.2.1 = ty) →
          ∃ p, getRow (incomeStatementTable
              [(("A", "B", "C"), [((0 : Int), (5 : ℚ))])] (fun _ => true) [])
              (c, ty, "Total") = some p
            ∧ p.1 = typeCatSum (periodRows
                [(("A", "B", "C"), [((0 : Int), (5 : ℚ))])] (fun _ => true)) c ty)
        ∧ (∀ c, (∃ r ∈ periodRows
            [(("A", "B", "C"), [((0 : Int), (5 : ℚ))])] (fun _ => true),
            r.1.1 = c) →
          ∃ p, getRow (incomeStatementTable
              [(("A", "B", "C"), [((0 : Int), (5 : ℚ))])] (fun _ => true) [])
              (c, "Total", " ") = some p
            ∧ p.1 = catSum (periodRows
                [(("A", "B", "C"), [((0 : Int), (5 : ℚ))])] (fun _ => true)) c)
        ∧ (∀ c, (∃ r ∈ periodRows
            [(("A", "B", "C"), [((0 : Int), (5 : ℚ))])] (fun _ => true),
            r.1.1 = c) →
          catSum (periodRows
            [(("A", "B", "C"), [((0 : Int), (5 : ℚ))])] (fun _ => true)) c ≠ 0 →
          (((incomeStatementTable
              [(("A", "B", "C"), [((0 : Int), (5 : ℚ))])] (fun _ => true) []).filter
              (fun r => r.1.1 == c && !(r.1.2.2 == "Total")
                && !(r.1.2.2 == " "))).map (fun r => r.2.2)).sum = 100))) :=
  ⟨by decide, by decide, by decide,
    c2_statement_totals [(("A", "B", "C"), [((0 : Int), (5 : ℚ))])]
      (fun _ => true) [] (by decide) (by decide) (by decide)⟩

theorem getRow_netTriple_before (t : List (Key × (ℚ × ℚ))) (nt : List String) :
    getRow (netTriple t nt) ("Net", "Net Income", "Before Taxes")
      = some ((((catsOf t).filter (fun c => !(nt.contains c))).map
          (catTotalOf t)).sum, 0) := rfl

theorem getRow_netTriple_after (t : List (Key × (ℚ × ℚ))) (nt : List String) :
    getRow (netTriple t nt) ("Net", "Net Income", "After Taxes")
      = some (((catsOf t).map (catTotalOf t)).sum, 0) := rfl

theorem getRow_netTriple_total (t : List (Key × (ℚ × ℚ))) (nt : List String) :
    getRow (netTriple t nt) ("Net", "Total", " ")
      = some (((catsOf t).map (catTotalOf t)).sum, 0) := rfl

theorem withTotals_cat_mem (base : List (Key × ℚ)) :
    ∀ r ∈ withTotals (pctRows base), ∃ s ∈ base, s.1.1 = r.1.1 := by
  intro r hr
  unfold withTotals combineFirst at hr
  rcases List.mem_append.mp hr with h | h
  · rcases List.mem_append.mp h with h | h
    · obtain ⟨s, hs, he⟩ := pctRows_key base r h
      exact ⟨s, hs, by rw [he]⟩
    · obtain ⟨s, hsP, he⟩ := (l1Totals_key _ r (List.mem_of_mem_filter h)).2
      obtain ⟨s0, hs0, he0⟩ := pctRows_key base s hsP
      refine ⟨s0, hs0, ?_⟩
      rw [← he0]
      exact he
  · obtain ⟨s, hsP, he⟩ := (l0Totals_key _ r (List.mem_of_mem_filter h)).2.2
    obtain ⟨s0, hs0, he0⟩ := pctRows_key base s hsP
    refine ⟨s0, hs0, ?_⟩
    rw [← he0]
    exact he

theorem mem_catsOf_withTotals (base : List (Key × ℚ)) (c : String) :
    c ∈ catsOf (withTotals (pctRows base)) ↔ c ∈ catsOf base := by
  rw [mem_catsOf, mem_catsOf]
  constructor
  · rintro ⟨r, hr, rfl⟩
    obtain ⟨s, hs, he⟩ := withTotals_cat_mem base r hr
    exact ⟨s, hs, he⟩
  · rintro ⟨r, hr, rfl⟩
    refine ⟨(r.1, (r.2, 100 * r.2 / catSum base r.1.1)), ?_, rfl⟩
    unfold withTotals combineFirst
    apply List.mem_append_left
    apply List.mem_append_left
    unfold pctRows
    exact List.mem_map.mpr ⟨r, hr, rfl⟩

theorem list_sum_eq_of (lA lB : List String) (f g : String → ℚ)
    (hA : lA.Nodup) (hB : lB.Nodup) (hmem : ∀ c, c ∈ lA ↔ c ∈ lB)
    (hfg : ∀ c ∈ lB, f c = g c) :
    (lA.map f).sum = (lB.map g).sum := by
  rw [← List.sum_toFinset f hA, ← List.sum_toFinset g hB]
  have he : lA.toFinset = lB.toFinset := by
    ext x
    simp only [List.mem_toFinset]
    exact hmem x
  rw [he]
  exact Finset.sum_congr rfl (fun c hc => hfg c (List.mem_toFinset.mp hc))

/-- C6: the Net section of the income statement.  For every period the
statement carries exactly three rows under the `Net` category: Net Income
Before Taxes, whose dollar value is the sum of the statement's own
Category-level total rows over the top-level Categories outside the
effective `nettax` set (the default set holds `Taxes` when the argument is
falsy); Net Income After Taxes, whose dollar value is the same sum over all
top-level Categories; and a Net Total row repeating the After-Taxes value. -/
theorem c6_net_income (table : List (Key × List (Int × ℚ)))
    (inPeriod : Int → Bool) (nettax0 : List String)
    (hnet : ∀ r ∈ table, r.1.1 ≠ "Net")
    (hi1 : ∀ r ∈ table, r.1.2.2 ≠ "Total")
    (hi2 : ∀ r ∈ table, r.1.2.2 ≠ " ") :
    (∃ p, getRow (incomeStatementTable table inPeriod nettax0)
        ("Net", "Net Income", "Before Taxes") = some p
      ∧ p.1 = (((catsOf (periodRows table inPeriod)).filter (fun c =>
          !((if nettax0.isEmpty then ["Taxes"] else nettax0).contains c))).map
        (fun c => ((getRow (incomeStatementTable table inPeriod nettax0)
          (c, "Total", " ")).map (fun q => q.1)).getD 0)).sum)
    ∧ (∃ p, getRow (incomeStatementTable table inPeriod nettax0)
        ("Net", "Net Income", "After Taxes") = some p
      ∧ p.1 = ((catsOf (periodRows table inPeriod)).map
        (fun c => ((getRow (incomeStatementTable table inPeriod nettax0)
          (c, "Total", " ")).map (fun q => q.1)).getD 0)).sum)
    ∧ (∃ p q, getRow (incomeStatementTable table inPeriod nettax0)
        ("Net", "Total", " ") = some p
      ∧ getRow (incomeStatementTable table inPeriod nettax0)
        ("Net", "Net Income", "After Taxes") = some q
      ∧ p.1 = q.1)
    ∧ ((incomeStatementTable table inPeriod nettax0).filter
        (fun r => r.1.1 == "Net")).length = 3 := by
  have hnetB := periodRows_key_prop table inPeriod (fun k => k.1 ≠ "Net") hnet
  have hi2B := periodRows_key_prop table inPeriod (fun k => k.2.2 ≠ " ") hi2
  have hTnet : ∀ r ∈ withTotals (pctRows (periodRows table inPeriod)),
      r.1.1 ≠ "Net" := by
    intro r hr
    obtain ⟨s, hs, he⟩ := withTotals_cat_mem _ r hr
    rw [← he]
    exact hnetB s hs
  have hfreshNet : ∀ k : Key, k.1 = "Net" →
      ∀ r ∈ withTotals (pctRows (periodRows table inPeriod)), r.1 ≠ k := by
    intro k hk r hr he
    exact hTnet r hr (by rw [he, hk])
  have hS1 : getRow (incomeStatementTable table inPeriod nettax0)
      ("Net", "Net Income", "Before Taxes")
      = getRow (netTriple (withTotals (pctRows (periodRows table inPeriod)))
          (if nettax0.isEmpty then ["Taxes"] else nettax0))
        ("Net", "Net Income", "Before Taxes") := by
    unfold incomeStatementTable
    exact getRow_append_right _ _ _ (hfreshNet _ rfl)
  have hS2 : getRow (incomeStatementTable table inPeriod nettax0)
      ("Net", "Net Income", "After Taxes")
      = getRow (netTriple (withTotals (pctRows (periodRows table inPeriod)))
          (if nettax0.isEmpty then ["Taxes"] else nettax0))
        ("Net", "Net Income", "After Taxes") := by
    unfold incomeStatementTable
    exact getRow_append_right _ _ _ (hfreshNet _ rfl)
  have hS3 : getRow (incomeStatementTable table inPeriod nettax0)
      ("Net", "Total", " ")
      = getRow (netTriple (withTotals (pctRows (periodRows table inPeriod)))
          (if nettax0.isEmpty then ["Taxes"] else nettax0))
        ("Net", "Total", " ") := by
    unfold incomeStatementTable
    exact getRow_append_right _ _ _ (hfreshNet _ rfl)
  have hpt : ∀ c ∈ catsOf (periodRows table inPeriod),
      catTotalOf (withTotals (pctRows (periodRows table inPeriod))) c
        = ((getRow (incomeStatementTable table inPeriod nettax0)
            (c, "Total", " ")).map (fun q => q.1)).getD 0 := by
    intro c hc
    obtain ⟨r0, hr0, hc0⟩ := (mem_catsOf _ c).mp hc
    have hfresh : ∀ r ∈ periodRows table inPeriod, r.1 ≠ (c, "Total", " ") :=
      fun r hr he => hi2B r hr (by rw [he])
    obtain ⟨p, hp, _⟩ := withTotals_cat_total (periodRows table inPeriod) c
      hfresh ⟨r0, hr0, hc0⟩
    have hpS : getRow (incomeStatementTable table inPeriod nettax0)
        (c, "Total", " ") = some p := by
      unfold incomeStatementTable
      exact getRow_append_left _ _ _ _ hp
    unfold catTotalOf
    rw [hp, hpS]
  have hAnd : (catsOf (withTotals (pctRows (periodRows table inPeriod)))).Nodup :=
    List.nodup_dedup _
  have hBnd : (catsOf (periodRows table inPeriod)).Nodup := List.nodup_dedup _
  refine ⟨?_, ?_, ?_, ?_⟩
  · refine ⟨_, by rw [hS1]; exact getRow_netTriple_before _ _, ?_⟩
    apply list_sum_eq_of
    · exact hAnd.filter _
    · exact hBnd.filter _
    · intro c
      rw [List.mem_filter, List.mem_filter, mem_catsOf_withTotals]
    · intro c hcB
      exact hpt c (List.mem_filter.mp hcB).1
  · refine ⟨_, by rw [hS2]; exact getRow_netTriple_after _ _, ?_⟩
    apply list_sum_eq_of
    · exact hAnd
    · exact hBnd
    · intro c
      exact mem_catsOf_withTotals _ c
    · exact hpt
  · refine ⟨_, _, by rw [hS3]; exact getRow_netTriple_total _ _,
      by rw [hS2]; exact getRow_netTriple_after _ _, rfl⟩
  · unfold incomeStatementTable
    rw [List.filter_append, filter_eq_nil_of_keys _ _
      (fun r hr => beq_eq_false_iff_ne.mpr (hTnet r hr)), List.nil_append]
    unfold netTriple
    rfl

/-- C6, witness: the statement applied to a one-leaf table with the default
nettax set. -/
theorem c6_net_income_witness :
    (∀ r ∈ ([(("A", "B", "C"), [((0 : Int), (5 : ℚ))])] :
        List (Key × List (Int × ℚ))), r.1.1 ≠ "Net")
    ∧ (∀ r ∈ ([(("A", "B", "C"), [((0 : Int), (5 : ℚ))])] :
        List (Key × List (Int × ℚ))), r.1.2.2 ≠ "Total")
    ∧ (∀ r ∈ ([(("A", "B", "C"), [((0 : Int), (5 : ℚ))])] :
        List (Key × List (Int × ℚ))), r.1.2.2 ≠ " ")
    ∧ ((∃ p, getRow (incomeStatementTable
          [(("A", "B", "C"), [((0 : Int), (5 : ℚ))])] (fun _ => true) [])
          ("Net", "Net Income", "Before Taxes") = some p
        ∧ p.1 = (((catsOf (periodRows
            [(("A", "B", "C"), [((0 : Int), (5 : ℚ))])] (fun _ => true))).filter
            (fun c => !((if ([] : List String).isEmpty then ["Taxes"]
              else []).contains c))).map
          (fun c => ((getRow (incomeStatementTable
            [(("A", "B", "C"), [((0 : Int), (5 : ℚ))])] (fun _ => true) [])
            (c, "Total", " ")).map (fun q => q.1)).getD 0)).sum)
      ∧ (∃ p, getRow (incomeStatementTable
          [(("A", "B", "C"), [((0 : Int), (5 : ℚ))])] (fun _ => true) [])
          ("Net", "Net Income", "After Taxes") = some p
        ∧ p.1 = ((catsOf (periodRows
            [(("A", "B", "C"), [((0 : Int), (5 : ℚ))])] (fun _ => true))).map
          (fun c => ((getRow (incomeStatementTable
            [(("A", "B", "C"), [((0 : Int), (5 : ℚ))])] (fun _ => true) [])
            (c, "Total", " ")).map (fun q => q.1)).getD 0)).sum)
      ∧ (∃ p q, getRow (incomeStatementTable
          [(("A", "B", "C"), [((0 : Int), (5 : ℚ))])] (fun _ => true) [])
          ("Net", "Total", " ") = some p
        ∧ getRow (incomeStatementTable
            [(("A", "B", "C"), [((0 : Int), (5 : ℚ))])] (fun _ => true) [])
          ("Net", "Net Income", "After Taxes") = some q
        ∧ p.1 = q.1)
      ∧ ((incomeStatementTable
          [(("A", "B", "C"), [((0 : Int), (5 : ℚ))])] (fun _ => true) []).filter
          (fun r => r.1.1 == "Net")).length = 3) :=
  ⟨by decide, by decide, by decide,
    c6_net_income [(("A", "B", "C"), [((0 : Int), (5 : ℚ))])]
      (fun _ => true) [] (by decide) (by decide) (by decide)⟩

end PF
